import Mathlib

/-!
Verification of setultrastik360.

A shallow embedding of `src/setultrastik360.cpp` and the properties of its
device locator, transfer engine, error handler and argument handling.

The USB library is the environment of the program.  Every answer the library
can give is a field of the model of a device (`libusb_device`) or of the host
(`World`), so a theorem quantified over all worlds covers every behaviour of
the library.  What the program does is recorded as a list of `Event`s.
-/

namespace SetUltraStik360

/-! ## Constants of the source -/

def UM_REQUEST_TYPE : Nat := 0x21
def UM_REQUEST : Nat := 9
def UM_TIMEOUT : Nat := 2000
def U360_VENDOR : Nat := 0xD209
def U360_PRODUCT : Nat := 0x0511
def U360_VALUE : Nat := 0x0200
def U360_MESG_LENGTH : Nat := 4
def U360_INTERFACE : Nat := 2
def U360_WRITE_CYCLES : Nat := 24
def U360_HARDWARE_WRITE_DELAY : Nat := 417
def KERNEL_DRIVER_ATTACHED : Int := 1
def LIBUSB_SUCCESS : Int := 0
def EXIT_SUCCESS : Int := 0
def EXIT_FAILURE : Int := 1

/-- Number of values of an `unsigned int` (32 bits). -/
def UINT_RANGE : Nat := 2 ^ 32

/-! ## The environment -/

/-- A device on the bus together with the answers libusb gives for it:
the return code of `libusb_get_device_descriptor` and the two descriptor
fields the program reads (both `uint16_t`), and the return codes of
`libusb_open`, `libusb_kernel_driver_active`, `libusb_detach_kernel_driver`,
`libusb_claim_interface`, the control transfer of each write cycle and
`libusb_release_interface`. -/
structure libusb_device where
  descriptorRc : Int
  idVendor : Nat
  idProduct : Nat
  openRc : Int
  kernelDriverActive : Int
  detachRc : Int
  claimRc : Int
  transferRc : Nat → Int
  releaseRc : Int

/-- The host: the return code of `libusb_init` and the device list that
`libusb_get_device_list` reports, in bus order. -/
structure World where
  initRc : Int
  bus : List libusb_device

/-- An entry of `devicelist`: `std::tuple<libusb_device *, int, int>`. -/
abbrev DeviceEntry := libusb_device × Int × Int

/-! ## Events -/

/-- What the program does, in order.  `dev` and `handle` are the position in
`devicelist` of the device a call is made for. -/
inductive Event where
  | libusb_init (rc : Int)
  | libusb_set_debug
  | warning (rc : Int)
  | populateU360BehavioralMaps
  | libusb_open (dev : Nat) (rc : Int)
  | libusb_kernel_driver_active (handle : Nat) (result : Int)
  | libusb_detach_kernel_driver (handle : Nat) (rc : Int)
  | libusb_claim_interface (handle : Nat) (rc : Int)
  | libusb_control_transfer (handle : Nat) (bmRequestType bRequest wValue wIndex : Nat)
      (data : List Nat) (wLength timeout : Nat) (rc : Int)
  | sleep_for (microseconds : Nat)
  | outcome (dev : Nat) (idVendor idProduct : Int) (hasRestrictor : Bool) (name : String)
      (success : Bool)
  | libusb_release_interface (handle : Nat) (rc : Int)
  | errorMessage (msg : String)
  | errorCode (rc : Int)
  | cleanup
  | libusb_close (handle : Nat)
  | libusb_exit
  | exit (status : Int)
  | wrongArguments
  | usage
  deriving DecidableEq, Repr

/-! ## getdevice -/

/-- The `for` loop of `getdevice` from index `idx` on.  The accumulator holds
the warnings printed so far and `devicelist`. -/
def getdeviceLoop (devices : List libusb_device) (vendor product : Nat) (idx : Nat)
    (acc : List Event × List DeviceEntry) : List Event × List DeviceEntry :=
  if h : idx < devices.length then
    let device := devices.get ⟨idx, h⟩
    let rc := device.descriptorRc
    if rc ≠ LIBUSB_SUCCESS then
      getdeviceLoop devices vendor product (idx + 1) (acc.1 ++ [Event.warning rc], acc.2)
    else
      if device.idVendor = vendor ∧
          (device.idProduct ≥ product ∧ device.idProduct ≤ (product + 3) % UINT_RANGE) then
        getdeviceLoop devices vendor product (idx + 1)
          (acc.1, acc.2 ++ [(device, (device.idVendor : Int), (device.idProduct : Int))])
      else
        getdeviceLoop devices vendor product (idx + 1) acc
  else acc
termination_by devices.length - idx

/-- The function `getdevice`: the returned flag, the warnings printed and the
final `devicelist`.  `vendor` and `product` are `unsigned int`. -/
def getdevice (devices : List libusb_device) (vendor product : Nat)
    (devicelist : List DeviceEntry) : Bool × List Event × List DeviceEntry :=
  let r := getdeviceLoop devices vendor product 0 ([], devicelist)
  (!r.2.isEmpty, r.1, r.2)

/-! ## The map table

`u360maps.h` declares `u360BehavioralMaps` and `populateU360BehavioralMaps`;
the program reads an entry as a tuple of a name and a
`std::valarray<unsigned char>`.  The populated table is a parameter of the
model. -/

/-- An entry of `u360BehavioralMaps`: `std::get<0>` is the name printed in the
outcome line, `std::get<1>` the payload bytes. -/
structure U360Map where
  name : String
  payload : List Nat

/-- The table `u360BehavioralMaps`, indexed by map id. -/
abbrev MapTable := Int → U360Map

/-- The byte stored at offset 2:
`hasRestrictor ? (unsigned char) 0x10 : (unsigned char) 0x09`. -/
def restrictorByte (hasRestrictor : Bool) : Nat :=
  if hasRestrictor then 0x10 else 0x09

/-- The assignment `std::get<1>(u360BehavioralMaps[mapId])[2] = ...` on the
payload. -/
def patchPayload (payload : List Nat) (hasRestrictor : Bool) : List Nat :=
  payload.set 2 (restrictorByte hasRestrictor)

/-- The same assignment on the shared table: only the entry `mapId` changes. -/
def patchTable (table : MapTable) (mapId : Int) (hasRestrictor : Bool) : MapTable :=
  fun i =>
    if i = mapId then
      { name := (table i).name, payload := patchPayload (table i).payload hasRestrictor }
    else table i

/-- The copy `valarray[std::slice(start, size, stride)]`: the elements at
`start`, `start + stride`, ..., `size` of them.  (An index past the end is
undefined in the source; it reads 0 here.) -/
def valarraySlice (v : List Nat) (start size stride : Nat) : List Nat :=
  (List.range size).map (fun j => v.getD (start + j * stride) 0)

/-! ## Machine integers -/

def INT_MIN : Int := -(2 ^ 31)
def INT_MAX : Int := 2 ^ 31 - 1

/-- The value of an `int` after an arithmetic result `x` is stored in it
(two's complement wrap-around). -/
def wrapInt (x : Int) : Int := (x + 2 ^ 31) % 2 ^ 32 - 2 ^ 31

/-- No `rc += r` of the write loop overflows `int`: starting from `acc`, every
running total lies in the range of `int`. -/
def noOverflow (acc : Int) : List Int → Prop
  | [] => True
  | r :: rs => (INT_MIN ≤ acc + r ∧ acc + r ≤ INT_MAX) ∧ noOverflow (acc + r) rs

instance noOverflowDecidable : (acc : Int) → (rs : List Int) → Decidable (noOverflow acc rs)
  | _, [] => isTrue trivial
  | acc, r :: rs =>
    have := noOverflowDecidable (acc + r) rs
    inferInstanceAs (Decidable ((INT_MIN ≤ acc + r ∧ acc + r ≤ INT_MAX) ∧ noOverflow (acc + r) rs))

/-! ## cleanup and errorhandler -/

/-- The function `cleanup`: the calls it makes for the given `context` and
`devicehandle` (`none` is the null pointer). -/
def cleanup (context : Option Unit) (devicehandle : Option Nat) : List Event :=
  [Event.cleanup]
    ++ (match devicehandle with
        | some h => [Event.libusb_close h]
        | none => [])
    ++ (match context with
        | some _ => [Event.libusb_exit]
        | none => [])

/-- The result of a run of the process. -/
structure Run where
  trace : List Event
  status : Int
  deriving DecidableEq, Repr

/-- Both overloads of `errorhandler`: print the error (`err`), clean up and
`exit(EXIT_FAILURE)`. `trace` is what happened before the call. -/
def errorhandler (context : Option Unit) (devicehandle : Option Nat) (err : Event)
    (trace : List Event) : Run :=
  { trace := trace ++ [err] ++ cleanup context devicehandle ++ [Event.exit EXIT_FAILURE],
    status := EXIT_FAILURE }

/-! ## applyU360map -/

/-- The variables a run of `applyU360map` works on, and the events so far. -/
structure Session where
  context : Option Unit
  devicehandle : Option Nat
  table : MapTable
  trace : List Event

/-- Either the function is still running or the process has ended in
`errorhandler`. -/
inductive Flow where
  | running (s : Session)
  | exited (r : Run)

/-- The events of the run so far. -/
def Flow.trace : Flow → List Event
  | Flow.running s => s.trace
  | Flow.exited r => r.trace

/-- The write loop `for (size_t i(0); i < 4 * 24; i += 4)` from index `i` on,
for the device at position `handle`; `rc` is the `int` accumulator. -/
def writeLoop (dev : libusb_device) (handle : Nat) (payload : List Nat) (i : Nat)
    (acc : Int × List Event) : Int × List Event :=
  if i < U360_MESG_LENGTH * U360_WRITE_CYCLES then
    let writeCycleSlice := valarraySlice payload i U360_MESG_LENGTH 1
    let r := dev.transferRc (i / U360_MESG_LENGTH)
    writeLoop dev handle payload (i + U360_MESG_LENGTH)
      (wrapInt (acc.1 + r),
       acc.2 ++ [Event.libusb_control_transfer handle UM_REQUEST_TYPE UM_REQUEST U360_VALUE
                   U360_INTERFACE writeCycleSlice U360_MESG_LENGTH UM_TIMEOUT r,
                 Event.sleep_for U360_HARDWARE_WRITE_DELAY])
  else acc
termination_by U360_MESG_LENGTH * U360_WRITE_CYCLES - i
decreasing_by
  simp only [U360_MESG_LENGTH, U360_WRITE_CYCLES] at *
  omega

/-- The body of `for (auto &device : devicelist)` for the device at position
`pos`.  A successful `libusb_open` stores a handle in `devicehandle`; a failed
one leaves the variable as it was. -/
def loopBody (mapId : Int) (hasRestrictor : Bool) (s : Session) (pos : Nat)
    (device : DeviceEntry) : Flow :=
  let rc := device.1.openRc
  let devicehandle := if rc = LIBUSB_SUCCESS then some pos else s.devicehandle
  let trace := s.trace ++ [Event.libusb_open pos rc]
  if rc ≠ LIBUSB_SUCCESS then
    Flow.exited (errorhandler s.context devicehandle (Event.errorCode rc) trace)
  else
    match devicehandle with
    | none => Flow.running { s with devicehandle := devicehandle, trace := trace }
    | some h =>
      let active := device.1.kernelDriverActive
      let trace := trace ++ [Event.libusb_kernel_driver_active h active]
      let rc := device.1.detachRc
      if active = KERNEL_DRIVER_ATTACHED ∧ rc ≠ LIBUSB_SUCCESS then
        Flow.exited (errorhandler s.context devicehandle (Event.errorCode rc)
          (trace ++ [Event.libusb_detach_kernel_driver h rc]))
      else
        let trace :=
          if active = KERNEL_DRIVER_ATTACHED then
            trace ++ [Event.libusb_detach_kernel_driver h rc]
          else trace
        let rc := device.1.claimRc
        let trace := trace ++ [Event.libusb_claim_interface h rc]
        if rc ≠ LIBUSB_SUCCESS then
          Flow.exited (errorhandler s.context devicehandle (Event.errorCode rc) trace)
        else
          let table := patchTable s.table mapId hasRestrictor
          let w := writeLoop device.1 h (table mapId).payload 0 (0, trace)
          let rc := w.1
          let trace := w.2 ++ [Event.outcome pos device.2.1 device.2.2 hasRestrictor
            (table mapId).name (rc = (U360_MESG_LENGTH * U360_WRITE_CYCLES : Nat))]
          let rc := device.1.releaseRc
          let trace := trace ++ [Event.libusb_release_interface h rc]
          if rc ≠ LIBUSB_SUCCESS then
            Flow.exited (errorhandler s.context devicehandle (Event.errorCode rc) trace)
          else
            Flow.running { s with devicehandle := devicehandle, table := table, trace := trace }

/-- The loop `for (auto &device : devicelist)`; `pos` is the position of the
first device of `devicelist` that is still to be processed. -/
def deviceLoop (mapId : Int) (hasRestrictor : Bool) (s : Session) (pos : Nat) :
    List DeviceEntry → Flow
  | [] => Flow.running s
  | device :: rest =>
    match loopBody mapId hasRestrictor s pos device with
    | Flow.running s' => deviceLoop mapId hasRestrictor s' (pos + 1) rest
    | Flow.exited r => Flow.exited r

/-- The function `applyU360map`, run in `world` with the populated map table
`table`.  `libusb_init` sets `context` when it succeeds. -/
def applyU360map (world : World) (table : MapTable) (mapId : Int) (hasRestrictor : Bool) :
    Run :=
  let rc := world.initRc
  let context : Option Unit := if rc = LIBUSB_SUCCESS then some () else none
  let devicehandle : Option Nat := none
  let trace := [Event.libusb_init rc]
  if rc ≠ LIBUSB_SUCCESS then
    errorhandler context devicehandle (Event.errorCode rc) trace
  else
    let trace := trace ++ [Event.libusb_set_debug]
    let found := getdevice world.bus U360_VENDOR U360_PRODUCT []
    let trace := trace ++ found.2.1
    if !found.1 then
      errorhandler context devicehandle
        (Event.errorMessage "No UltraStik360 devices were found.") trace
    else
      let trace := trace ++ [Event.populateU360BehavioralMaps]
      let s : Session :=
        { context := context, devicehandle := devicehandle, table := table, trace := trace }
      match deviceLoop mapId hasRestrictor s 0 found.2.2 with
      | Flow.exited r => r
      | Flow.running s' =>
        { trace := s'.trace ++ cleanup s'.context s'.devicehandle, status := EXIT_SUCCESS }

/-! ## main -/

/-- What a `char *` of `main` points to: an element of `argv` or a string
literal of the program.  Two pointers are equal when they point to the same
object. -/
inductive CharPtr where
  | argv (i : Nat)
  | literal (s : String)
  deriving DecidableEq, Repr

/-- The predicate `isspace` of the C locale. -/
def isspace (c : Char) : Bool :=
  c = ' ' || (9 ≤ c.toNat && c.toNat ≤ 13)

def LONG_MIN : Int := -(2 ^ 63)
def LONG_MAX : Int := 2 ^ 63 - 1

/-- The value of a run of decimal digits. -/
def digitsValue (digits : List Char) : Nat :=
  digits.foldl (fun acc c => acc * 10 + (c.toNat - 48)) 0

/-- The optional sign read by `std::stol`: whether it is a minus sign, and what
follows it. -/
def stolSign (s : List Char) : Bool × List Char :=
  match s with
  | '-' :: t => (true, t)
  | '+' :: t => (false, t)
  | _ => (false, s)

/-- The call `std::stol(str, nullptr, 10)`: skip white space, read an optional
sign and the longest run of decimal digits, ignore what follows.  `none` is a
thrown exception (`invalid_argument` without a digit, `out_of_range` when the
value does not fit `long`). -/
def stol (str : List Char) : Option Int :=
  let s := str.dropWhile isspace
  let signed := stolSign s
  let digits := signed.2.takeWhile Char.isDigit
  if digits = [] then none
  else
    let v : Int := if signed.1 then -(digitsValue digits : Int) else (digitsValue digits : Int)
    if v < LONG_MIN ∨ v > LONG_MAX then none else some v

/-- The function `main`; `argv` holds the `argc` argument strings. -/
def main (world : World) (table : MapTable) (argv : List String) : Run :=
  let argc := argv.length
  let mapId : Int := 0
  let hasRestrictor := false
  if argc = 3 ∨ argc = 2 then
    let hasRestrictor :=
      if argc = 3 ∧ CharPtr.argv 2 = CharPtr.literal "-r" then true else hasRestrictor
    let mapId : Int :=
      match stol (argv.getD 1 "").toList with
      | some v => if v < 1 ∨ v > 9 then 0 else v
      | none => mapId
    if mapId = 0 then
      { trace := [Event.wrongArguments], status := EXIT_FAILURE }
    else applyU360map world table mapId hasRestrictor
  else
    { trace := [Event.usage], status := EXIT_SUCCESS }

/-! ## Definitions that follow the words of the specification -/

/-- The matching rule of the specification: `descriptor.vendorId == vendorId`
and `productBaseId <= descriptor.productId <= productBaseId + 3`. -/
def specMatches (vendor product : Nat) (d : libusb_device) : Bool :=
  decide (d.idVendor = vendor ∧ product ≤ d.idProduct ∧ d.idProduct ≤ product + 3)

/-- The devices the locator of the specification reports: those whose
descriptor was read and matches, in bus order. -/
def specLocate (devices : List libusb_device) (vendor product : Nat) : List DeviceEntry :=
  (devices.filter (fun d => decide (d.descriptorRc = LIBUSB_SUCCESS) && specMatches vendor product d)).map
    (fun d => (d, (d.idVendor : Int), (d.idProduct : Int)))

/-- The 4-byte frame `k` of the specification: the bytes at offsets
`4k .. 4k+3` of the payload. -/
def specFrame (payload : List Nat) (k : Nat) : List Nat :=
  (payload.drop (4 * k)).take 4

/-- The 24 ordered frames into which the specification splits a payload. -/
def specFrames (payload : List Nat) : List (List Nat) :=
  (List.range 24).map (specFrame payload)

/-! ## Observations on a trace -/

/-- The control transfers of a trace, in order: handle and data. -/
def transfers (trace : List Event) : List (Nat × List Nat) :=
  trace.filterMap fun e =>
    match e with
    | Event.libusb_control_transfer h _ _ _ _ data _ _ _ => some (h, data)
    | _ => none

/-- The frames sent on handle `h`, in order. -/
def framesSent (h : Nat) (trace : List Event) : List (List Nat) :=
  ((transfers trace).filter (fun t => t.1 = h)).map (fun t => t.2)

/-- The outcome lines of a trace, in order: device position and whether the
line says SUCCESS. -/
def outcomes (trace : List Event) : List (Nat × Bool) :=
  trace.filterMap fun e =>
    match e with
    | Event.outcome dev _ _ _ _ success => some (dev, success)
    | _ => none

/-- The position of the device an event is about, for the calls made on a
device or its handle and for its outcome line. -/
def Event.device : Event → Option Nat
  | Event.libusb_open dev _ => some dev
  | Event.libusb_kernel_driver_active h _ => some h
  | Event.libusb_detach_kernel_driver h _ => some h
  | Event.libusb_claim_interface h _ => some h
  | Event.libusb_control_transfer h _ _ _ _ _ _ _ _ => some h
  | Event.outcome dev _ _ _ _ _ => some dev
  | Event.libusb_release_interface h _ => some h
  | _ => none

/-- The number of entries into `cleanup`. -/
def cleanupCount (trace : List Event) : Nat :=
  trace.count Event.cleanup

/-- The change an event makes to the number of open device handles: one more
for a successful `libusb_open`, one less for a `libusb_close`. -/
def handleDelta : Event → Int
  | Event.libusb_open _ rc => if rc = LIBUSB_SUCCESS then 1 else 0
  | Event.libusb_close _ => -1
  | _ => 0

/-- The number of device handles opened by `libusb_open` and not yet closed
after a trace. -/
def openHandles (trace : List Event) : Int :=
  (trace.map handleDelta).sum

/-- The return values of the 24 control transfers made for a device. -/
def transferResults (dev : libusb_device) : List Int :=
  (List.range U360_WRITE_CYCLES).map dev.transferRc

/-- The accumulator of the write loop after the return values `rs`. -/
def accumulate (acc : Int) (rs : List Int) : Int :=
  rs.foldl (fun a r => wrapInt (a + r)) acc

/-- The two events of write cycle `k`. -/
def cycleEvents (dev : libusb_device) (handle : Nat) (payload : List Nat) (k : Nat) :
    List Event :=
  [Event.libusb_control_transfer handle UM_REQUEST_TYPE UM_REQUEST U360_VALUE U360_INTERFACE
     (valarraySlice payload (U360_MESG_LENGTH * k) U360_MESG_LENGTH 1) U360_MESG_LENGTH
     UM_TIMEOUT (dev.transferRc k),
   Event.sleep_for U360_HARDWARE_WRITE_DELAY]

/-- None of `libusb_open`, `libusb_detach_kernel_driver` (when it is called)
and `libusb_claim_interface` fails for the device. -/
def claimable (d : libusb_device) : Prop :=
  d.openRc = LIBUSB_SUCCESS ∧
  (d.kernelDriverActive = KERNEL_DRIVER_ATTACHED → d.detachRc = LIBUSB_SUCCESS) ∧
  d.claimRc = LIBUSB_SUCCESS

instance claimableDecidable (d : libusb_device) : Decidable (claimable d) := by
  unfold claimable; infer_instance

/-- One of the four fatal calls fails for the device: `libusb_open`,
`libusb_detach_kernel_driver` (called when a kernel driver is attached),
`libusb_claim_interface` or `libusb_release_interface`. -/
def fatal (d : libusb_device) : Prop :=
  ¬ claimable d ∨ d.releaseRc ≠ LIBUSB_SUCCESS

instance fatalDecidable (d : libusb_device) : Decidable (fatal d) := by
  unfold fatal; infer_instance

/-- The calls of one loop iteration up to `libusb_claim_interface`, as far
as they are made: the iteration stops at the first call that fails. -/
def openingEvents (pos : Nat) (d : libusb_device) : List Event :=
  Event.libusb_open pos d.openRc ::
    (if d.openRc = LIBUSB_SUCCESS then
      Event.libusb_kernel_driver_active pos d.kernelDriverActive ::
        (if d.kernelDriverActive = KERNEL_DRIVER_ATTACHED then
          Event.libusb_detach_kernel_driver pos d.detachRc ::
            (if d.detachRc = LIBUSB_SUCCESS then [Event.libusb_claim_interface pos d.claimRc]
             else [])
         else [Event.libusb_claim_interface pos d.claimRc])
     else [])

/-- The return code `errorhandler` is called with when the device is not
claimable. -/
def openingError (d : libusb_device) : Int :=
  if d.openRc ≠ LIBUSB_SUCCESS then d.openRc
  else if d.kernelDriverActive = KERNEL_DRIVER_ATTACHED ∧ d.detachRc ≠ LIBUSB_SUCCESS then
    d.detachRc
  else d.claimRc

/-- The events of a loop iteration for a claimable device, when the payload of
the selected map is `payload` and its name `name` after the patch. -/
def programEvents (hasRestrictor : Bool) (name : String) (payload : List Nat) (pos : Nat)
    (d : DeviceEntry) : List Event :=
  openingEvents pos d.1 ++
    (List.range U360_WRITE_CYCLES).flatMap (cycleEvents d.1 pos payload) ++
    [Event.outcome pos d.2.1 d.2.2 hasRestrictor name
       (decide (accumulate 0 (transferResults d.1) = 96)),
     Event.libusb_release_interface pos d.1.releaseRc]

/-- The session at the entry of the device loop of `applyU360map`, after a
successful `libusb_init` and a successful `getdevice`. -/
def loopEntry (world : World) (table : MapTable) : Session :=
  { context := some (), devicehandle := none, table := table,
    trace := [Event.libusb_init world.initRc, Event.libusb_set_debug] ++
      (getdevice world.bus U360_VENDOR U360_PRODUCT []).2.1 ++
      [Event.populateU360BehavioralMaps] }

/-- The list `devicelist` of a run of `applyU360map` in `world`. -/
def devicelistOf (world : World) : List DeviceEntry :=
  (getdevice world.bus U360_VENDOR U360_PRODUCT []).2.2

/-- The shape of a trace in which `cleanup` ran exactly once, as the last
thing before the process ended: nothing follows the calls of `cleanup` but, on
the error path, the `exit` itself. -/
def cleanedUpOnce (trace : List Event) : Prop :=
  ∃ before context devicehandle, cleanupCount before = 0 ∧
    (trace = before ++ cleanup context devicehandle ∨
     trace = before ++ cleanup context devicehandle ++ [Event.exit EXIT_FAILURE])

/-- The number of devices of `devicelist` that reach the write loop: the
devices before the first one with a fatal call, and that one as well when it is
claimable (it is its `libusb_release_interface` that fails). -/
def programmed : List DeviceEntry → Nat
  | [] => 0
  | d :: rest =>
    if claimable d.1 then
      if d.1.releaseRc = LIBUSB_SUCCESS then programmed rest + 1 else 1
    else 0

/-- The frames of the write loop for a payload, as the code slices them. -/
def slices (payload : List Nat) : List (List Nat) :=
  (List.range U360_WRITE_CYCLES).map
    (fun k => valarraySlice payload (U360_MESG_LENGTH * k) U360_MESG_LENGTH 1)

/-- The number of bytes a control transfer wrote: its return value when that
is a byte count, nothing when it is a negative error code. -/
def bytesWritten (r : Int) : Int :=
  if r < 0 then 0 else r

/-- The outcome line the specification asks for a device: SUCCESS exactly when
the return values of its 24 transfers add up to 96. -/
def specOutcome (d : DeviceEntry) : Bool :=
  decide ((transferResults d.1).sum = 96)

/-- The integer a string denotes, in the words of the specification: an
optional sign followed by decimal digits and nothing else. -/
def specInteger (s : List Char) : Option Int :=
  match s with
  | '-' :: t => if t ≠ [] ∧ t.all Char.isDigit then some (-(digitsValue t : Int)) else none
  | '+' :: t => if t ≠ [] ∧ t.all Char.isDigit then some (digitsValue t : Int) else none
  | t => if t ≠ [] ∧ t.all Char.isDigit then some (digitsValue t : Int) else none

/-- The map the specification selects for an argument: the argument denotes an
integer in 1..9. -/
def specMapId (s : List Char) : Option Int :=
  match specInteger s with
  | some v => if 1 ≤ v ∧ v ≤ 9 then some v else none
  | none => none

/-- The run of `main` that only reports wrong arguments. -/
def wrongArgumentsRun : Run :=
  { trace := [Event.wrongArguments], status := EXIT_FAILURE }

/-! ## Sample inputs -/

/-- An UltraStik 360 with the given product id for which every call succeeds
and every transfer writes its 4 bytes. -/
def u360 (product : Nat) : libusb_device :=
  { descriptorRc := 0, idVendor := 0xD209, idProduct := product, openRc := 0,
    kernelDriverActive := 1, detachRc := 0, claimRc := 0, transferRc := fun _ => 4,
    releaseRc := 0 }

/-- A host with two UltraStik 360 on the bus. -/
def twoSticks : World :=
  { initRc := 0, bus := [u360 0x0511, u360 0x0512] }

/-- A populated map table whose payloads are the bytes 0, 1, ..., 95. -/
def sampleTable : MapTable :=
  fun _ => { name := "map", payload := List.range 96 }

/-- An UltraStik 360 whose eighth control transfer times out
(`LIBUSB_ERROR_TIMEOUT` is -7); everything else succeeds. -/
def timingOut (product : Nat) : libusb_device :=
  { u360 product with transferRc := fun k => if k = 7 then -7 else 4 }

/-- An UltraStik 360 whose interface cannot be claimed (`LIBUSB_ERROR_BUSY`
is -6). -/
def busy (product : Nat) : libusb_device :=
  { u360 product with claimRc := -6 }

/-- A device whose descriptor cannot be read (`LIBUSB_ERROR_IO` is -1). -/
def unreadable : libusb_device :=
  { u360 0x0511 with descriptorRc := -1 }

/-- A bus with sticks just outside and inside the product range and a device
whose descriptor read fails. -/
def sampleBus : List libusb_device :=
  [u360 0x0510, unreadable, u360 0x0511, u360 0x0514, u360 0x0515]

/-- A host whose first stick has a transfer that times out. -/
def flakyHost : World :=
  { initRc := 0, bus := [timingOut 0x0511, u360 0x0512] }

/-- A host whose second stick of three cannot be claimed. -/
def busyHost : World :=
  { initRc := 0, bus := [u360 0x0511, busy 0x0512, u360 0x0513] }

/-- A host without any UltraStik 360. -/
def emptyHost : World :=
  { initRc := 0, bus := [u360 0x0510] }

/-! ## The device locator -/

theorem specLocate_nil (vendor product : Nat) : specLocate [] vendor product = [] := rfl

theorem specLocate_cons_pos (d : libusb_device) (ds : List libusb_device) (vendor product : Nat)
    (hrc : d.descriptorRc = LIBUSB_SUCCESS) (hm : specMatches vendor product d = true) :
    specLocate (d :: ds) vendor product =
      (d, (d.idVendor : Int), (d.idProduct : Int)) :: specLocate ds vendor product := by
  simp [specLocate, hrc, hm]

theorem specLocate_cons_neg (d : libusb_device) (ds : List libusb_device) (vendor product : Nat)
    (h : d.descriptorRc ≠ LIBUSB_SUCCESS ∨ specMatches vendor product d = false) :
    specLocate (d :: ds) vendor product = specLocate ds vendor product := by
  rcases h with h | h <;> simp [specLocate, h]

theorem specLocate_append (xs ys : List libusb_device) (vendor product : Nat) :
    specLocate (xs ++ ys) vendor product =
      specLocate xs vendor product ++ specLocate ys vendor product := by
  simp [specLocate]

theorem mem_specLocate (devices : List libusb_device) (vendor product : Nat) (d : libusb_device)
    (v p : Int) :
    (d, v, p) ∈ specLocate devices vendor product ↔
      d ∈ devices ∧ d.descriptorRc = LIBUSB_SUCCESS ∧ specMatches vendor product d = true ∧
        v = d.idVendor ∧ p = d.idProduct := by
  simp only [specLocate, List.mem_map, List.mem_filter, Bool.and_eq_true, decide_eq_true_eq,
    Prod.mk.injEq]
  constructor
  · rintro ⟨a, ⟨ha, hrc, hm⟩, rfl, rfl, rfl⟩
    exact ⟨ha, hrc, hm, rfl, rfl⟩
  · rintro ⟨ha, hrc, hm, rfl, rfl⟩
    exact ⟨d, ⟨ha, hrc, hm⟩, rfl, rfl, rfl⟩

theorem getdeviceLoop_devicelist (devices : List libusb_device) (vendor product : Nat)
    (hp : product + 3 < UINT_RANGE) (n : Nat) :
    ∀ (idx : Nat) (acc : List Event × List DeviceEntry), devices.length - idx = n →
      (getdeviceLoop devices vendor product idx acc).2 =
        acc.2 ++ specLocate (devices.drop idx) vendor product := by
  induction n with
  | zero =>
    intro idx acc hn
    have hlen : devices.length ≤ idx := by omega
    rw [getdeviceLoop, dif_neg (by omega), List.drop_of_length_le hlen]
    simp [specLocate]
  | succ n ih =>
    intro idx acc hn
    have hlt : idx < devices.length := by omega
    have hdrop : devices.drop idx = devices.get ⟨idx, hlt⟩ :: devices.drop (idx + 1) := by
      simp
    have hmod : (product + 3) % UINT_RANGE = product + 3 := Nat.mod_eq_of_lt hp
    rw [getdeviceLoop, dif_pos hlt]
    simp only [hmod]
    by_cases hrc : (devices.get ⟨idx, hlt⟩).descriptorRc = LIBUSB_SUCCESS
    · by_cases hm : (devices.get ⟨idx, hlt⟩).idVendor = vendor ∧
          ((devices.get ⟨idx, hlt⟩).idProduct ≥ product ∧
            (devices.get ⟨idx, hlt⟩).idProduct ≤ product + 3)
      · have hs : specMatches vendor product (devices.get ⟨idx, hlt⟩) = true := by
          simpa [specMatches] using hm
        rw [if_neg (not_not.mpr hrc), if_pos hm, ih (idx + 1) _ (by omega), hdrop,
          specLocate_cons_pos _ _ _ _ hrc hs, List.append_assoc]
        rfl
      · have hs : specMatches vendor product (devices.get ⟨idx, hlt⟩) = false := by
          simpa [specMatches] using hm
        rw [if_neg (not_not.mpr hrc), if_neg hm, ih (idx + 1) _ (by omega), hdrop,
          specLocate_cons_neg _ _ _ _ (Or.inr hs)]
    · rw [if_pos hrc, ih (idx + 1) _ (by omega), hdrop,
        specLocate_cons_neg _ _ _ _ (Or.inl hrc)]

theorem getdevice_eq_specLocate (devices : List libusb_device) (vendor product : Nat)
    (hp : product + 3 < UINT_RANGE) :
    (getdevice devices vendor product []).2.2 = specLocate devices vendor product := by
  simp only [getdevice]
  rw [getdeviceLoop_devicelist devices vendor product hp _ 0 _ rfl]
  simp

theorem devicelistOf_eq (world : World) :
    devicelistOf world = specLocate world.bus U360_VENDOR U360_PRODUCT :=
  getdevice_eq_specLocate world.bus U360_VENDOR U360_PRODUCT (by decide)

/-- C1: started on an empty `devicelist`, `getdevice` with a 16-bit base product
id yields exactly the devices, in bus order, whose descriptor was read and has
`idVendor == vendor` and `product <= idProduct <= product + 3`, and returns
whether that list is non-empty.  A device with product id base-1 or base+4 is
never in the list, one with base, base+1, base+2 or base+3 (vendor matching,
descriptor read) always is, and a device whose descriptor read fails is
skipped: the devices after it are scanned as if it were not on the bus. -/
theorem getdevice_exact (devices : List libusb_device) (vendor product : Nat)
    (hp : product < 2 ^ 16) :
    (getdevice devices vendor product []).2.2 = specLocate devices vendor product ∧
    (getdevice devices vendor product []).1 = !(specLocate devices vendor product).isEmpty ∧
    (∀ d ∈ devices, (d.idProduct + 1 = product ∨ d.idProduct = product + 4) →
      ∀ v p, (d, v, p) ∉ (getdevice devices vendor product []).2.2) ∧
    (∀ d ∈ devices, d.descriptorRc = LIBUSB_SUCCESS → d.idVendor = vendor →
      (d.idProduct = product ∨ d.idProduct = product + 1 ∨ d.idProduct = product + 2 ∨
        d.idProduct = product + 3) →
      (d, (d.idVendor : Int), (d.idProduct : Int)) ∈ (getdevice devices vendor product []).2.2) ∧
    (∀ before failed after, devices = before ++ failed :: after →
      failed.descriptorRc ≠ LIBUSB_SUCCESS →
      (getdevice devices vendor product []).2.2 =
        (getdevice before vendor product []).2.2 ++ (getdevice after vendor product []).2.2) := by
  have hp3 : product + 3 < UINT_RANGE := by
    simp only [UINT_RANGE]; omega
  have key : ∀ ds : List libusb_device,
      (getdevice ds vendor product []).2.2 = specLocate ds vendor product :=
    fun ds => getdevice_eq_specLocate ds vendor product hp3
  have hflag : (getdevice devices vendor product []).1 =
      !((getdevice devices vendor product []).2.2).isEmpty := rfl
  refine ⟨key devices, ?_, ?_, ?_, ?_⟩
  · rw [hflag, key]
  · intro d _ hd v p hmem
    rw [key, mem_specLocate] at hmem
    have hm := hmem.2.2.1
    simp only [specMatches, decide_eq_true_eq] at hm
    omega
  · intro d hd hrc hv hprod
    rw [key, mem_specLocate]
    refine ⟨hd, hrc, ?_, rfl, rfl⟩
    simp only [specMatches, decide_eq_true_eq]
    omega
  · intro before failed after hsplit hrc
    rw [key, key, key, hsplit, specLocate_append, specLocate_cons_neg _ _ _ _ (Or.inl hrc)]

/-! ## The write loop -/

theorem writeLoop_closed (dev : libusb_device) (handle : Nat) (payload : List Nat) (n : Nat) :
    ∀ (k : Nat) (acc : Int × List Event), k + n = U360_WRITE_CYCLES →
      writeLoop dev handle payload (U360_MESG_LENGTH * k) acc =
        (accumulate acc.1 ((List.range' k n).map dev.transferRc),
         acc.2 ++ (List.range' k n).flatMap (cycleEvents dev handle payload)) := by
  induction n with
  | zero =>
    intro k acc hk
    rw [writeLoop, if_neg (by simp only [U360_MESG_LENGTH, U360_WRITE_CYCLES] at *; omega)]
    simp [accumulate]
  | succ n ih =>
    intro k acc hk
    have hdiv : U360_MESG_LENGTH * k / U360_MESG_LENGTH = k := by
      simp [U360_MESG_LENGTH]
    have hnext : U360_MESG_LENGTH * k + U360_MESG_LENGTH = U360_MESG_LENGTH * (k + 1) := by
      simp only [U360_MESG_LENGTH]; omega
    rw [writeLoop, if_pos (by simp only [U360_MESG_LENGTH, U360_WRITE_CYCLES] at *; omega)]
    simp only [hdiv, hnext]
    rw [ih (k + 1) _ (by omega), List.range'_succ]
    simp [accumulate, cycleEvents, List.flatMap_cons]

theorem writeLoop_zero (dev : libusb_device) (handle : Nat) (payload : List Nat)
    (acc : Int × List Event) :
    writeLoop dev handle payload 0 acc =
      (accumulate acc.1 (transferResults dev),
       acc.2 ++ (List.range U360_WRITE_CYCLES).flatMap (cycleEvents dev handle payload)) := by
  have h := writeLoop_closed dev handle payload U360_WRITE_CYCLES 0 acc (by simp)
  simpa [transferResults, List.range_eq_range', U360_MESG_LENGTH] using h

/-! ## The device loop -/

theorem deviceLoop_invariant (mapId : Int) (hasRestrictor : Bool)
    (I : Session → Nat → Prop) (Q : Run → Prop) (D : DeviceEntry → Prop)
    (hrun : ∀ s pos d s', D d → I s pos →
      loopBody mapId hasRestrictor s pos d = Flow.running s' → I s' (pos + 1))
    (hexit : ∀ s pos d r, D d → I s pos →
      loopBody mapId hasRestrictor s pos d = Flow.exited r → Q r) :
    ∀ (devicelist : List DeviceEntry) (s : Session) (pos : Nat),
      (∀ d ∈ devicelist, D d) → I s pos →
      match deviceLoop mapId hasRestrictor s pos devicelist with
      | Flow.running s' => I s' (pos + devicelist.length)
      | Flow.exited r => Q r := by
  intro devicelist
  induction devicelist with
  | nil =>
    intro s pos _ hI
    simpa [deviceLoop] using hI
  | cons d rest ih =>
    intro s pos hD hI
    have hd : D d := hD d (List.mem_cons_self d rest)
    have hrest : ∀ x ∈ rest, D x := fun x hx => hD x (List.mem_cons_of_mem d hx)
    rw [deviceLoop]
    cases hb : loopBody mapId hasRestrictor s pos d with
    | running s' =>
      have h := ih s' (pos + 1) hrest (hrun s pos d s' hd hI hb)
      simpa [List.length_cons, Nat.add_assoc, Nat.add_comm 1] using h
    | exited r =>
      exact hexit s pos d r hd hI hb

theorem loopBody_not_claimable (mapId : Int) (hasRestrictor : Bool) (s : Session) (pos : Nat)
    (d : DeviceEntry) (h : ¬ claimable d.1) :
    loopBody mapId hasRestrictor s pos d =
      Flow.exited (errorhandler s.context
        (if d.1.openRc = LIBUSB_SUCCESS then some pos else s.devicehandle)
        (Event.errorCode (openingError d.1)) (s.trace ++ openingEvents pos d.1)) := by
  by_cases h1 : d.1.openRc = LIBUSB_SUCCESS
  · by_cases h2 : d.1.kernelDriverActive = KERNEL_DRIVER_ATTACHED
    · by_cases h3 : d.1.detachRc = LIBUSB_SUCCESS
      · have h4 : d.1.claimRc ≠ LIBUSB_SUCCESS := fun h4 => h ⟨h1, fun _ => h3, h4⟩
        simp [loopBody, openingEvents, openingError, h1, h2, h3, h4]
      · simp [loopBody, openingEvents, openingError, h1, h2, h3]
    · have h4 : d.1.claimRc ≠ LIBUSB_SUCCESS := fun h4 => h ⟨h1, fun h' => absurd h' h2, h4⟩
      simp [loopBody, openingEvents, openingError, h1, h2, h4]
  · simp [loopBody, openingEvents, openingError, h1]

theorem loopBody_claimable (mapId : Int) (hasRestrictor : Bool) (s : Session) (pos : Nat)
    (d : DeviceEntry) (h : claimable d.1) :
    loopBody mapId hasRestrictor s pos d =
      if d.1.releaseRc ≠ LIBUSB_SUCCESS then
        Flow.exited (errorhandler s.context (some pos) (Event.errorCode d.1.releaseRc)
          (s.trace ++ programEvents hasRestrictor (s.table mapId).name
            (patchPayload (s.table mapId).payload hasRestrictor) pos d))
      else
        Flow.running
          { context := s.context, devicehandle := some pos,
            table := patchTable s.table mapId hasRestrictor,
            trace := s.trace ++ programEvents hasRestrictor (s.table mapId).name
              (patchPayload (s.table mapId).payload hasRestrictor) pos d } := by
  obtain ⟨h1, h2, h3⟩ := h
  have hc : ((U360_MESG_LENGTH * U360_WRITE_CYCLES : Nat) : Int) = 96 := by
    simp [U360_MESG_LENGTH, U360_WRITE_CYCLES]
  by_cases ha : d.1.kernelDriverActive = KERNEL_DRIVER_ATTACHED
  · have hd := h2 ha
    by_cases hr : d.1.releaseRc = LIBUSB_SUCCESS <;>
      simp [loopBody, writeLoop_zero, programEvents, openingEvents, patchTable, h1, ha, hd, h3,
        hr, hc]
  · by_cases hr : d.1.releaseRc = LIBUSB_SUCCESS <;>
      simp [loopBody, writeLoop_zero, programEvents, openingEvents, patchTable, h1, ha, h3,
        hr, hc]

/-! ## Cleanup -/

theorem cleanupCount_append (a b : List Event) :
    cleanupCount (a ++ b) = cleanupCount a + cleanupCount b := by
  simp [cleanupCount]

theorem cleanupCount_cleanup (context : Option Unit) (devicehandle : Option Nat) :
    cleanupCount (cleanup context devicehandle) = 1 := by
  cases context <;> cases devicehandle <;> simp [cleanup, cleanupCount]

theorem cleanupCount_cycles (dev : libusb_device) (handle : Nat) (payload : List Nat)
    (ks : List Nat) :
    cleanupCount (ks.flatMap (cycleEvents dev handle payload)) = 0 := by
  induction ks with
  | nil => rfl
  | cons k ks ih =>
    rw [List.flatMap_cons, cleanupCount_append, ih]
    simp [cycleEvents, cleanupCount]

theorem cleanupCount_openingEvents (pos : Nat) (d : libusb_device) :
    cleanupCount (openingEvents pos d) = 0 := by
  unfold openingEvents
  split_ifs <;> simp [cleanupCount]

theorem cleanupCount_programEvents (hasRestrictor : Bool) (name : String) (payload : List Nat)
    (pos : Nat) (d : DeviceEntry) :
    cleanupCount (programEvents hasRestrictor name payload pos d) = 0 := by
  simp only [programEvents, cleanupCount_append, cleanupCount_openingEvents,
    cleanupCount_cycles]
  simp [cleanupCount]

theorem cleanedUpOnce_errorhandler (context : Option Unit) (devicehandle : Option Nat)
    (err : Event) (trace : List Event) (herr : err ≠ Event.cleanup)
    (htrace : cleanupCount trace = 0) :
    cleanedUpOnce (errorhandler context devicehandle err trace).trace := by
  refine ⟨trace ++ [err], context, devicehandle, ?_, Or.inr rfl⟩
  rw [cleanupCount_append, htrace]
  simp [cleanupCount, List.count_cons, herr]

theorem cleanupCount_of_cleanedUpOnce (trace : List Event) (h : cleanedUpOnce trace) :
    cleanupCount trace = 1 := by
  obtain ⟨before, context, devicehandle, h0, h | h⟩ := h
  · rw [h, cleanupCount_append, h0, cleanupCount_cleanup]
  · rw [h, cleanupCount_append, cleanupCount_append, h0, cleanupCount_cleanup]
    simp [cleanupCount]

theorem loopBody_cleanup (mapId : Int) (hasRestrictor : Bool) (s : Session) (pos : Nat)
    (d : DeviceEntry) (hs : cleanupCount s.trace = 0) :
    match loopBody mapId hasRestrictor s pos d with
    | Flow.running s' => cleanupCount s'.trace = 0
    | Flow.exited r => cleanedUpOnce r.trace := by
  by_cases hc : claimable d.1
  · rw [loopBody_claimable _ _ _ _ _ hc]
    split_ifs with hr
    · exact cleanedUpOnce_errorhandler _ _ _ _ (by simp)
        (by rw [cleanupCount_append, hs, cleanupCount_programEvents])
    · simp only
      rw [cleanupCount_append, hs, cleanupCount_programEvents]
  · rw [loopBody_not_claimable _ _ _ _ _ hc]
    exact cleanedUpOnce_errorhandler _ _ _ _ (by simp)
      (by rw [cleanupCount_append, hs, cleanupCount_openingEvents])

theorem deviceLoop_cleanup (mapId : Int) (hasRestrictor : Bool) (devicelist : List DeviceEntry)
    (s : Session) (pos : Nat) (hs : cleanupCount s.trace = 0) :
    match deviceLoop mapId hasRestrictor s pos devicelist with
    | Flow.running s' => cleanupCount s'.trace = 0
    | Flow.exited r => cleanedUpOnce r.trace := by
  refine deviceLoop_invariant mapId hasRestrictor (fun s _ => cleanupCount s.trace = 0)
    (fun r => cleanedUpOnce r.trace) (fun _ => True) ?_ ?_ devicelist s pos
    (fun _ _ => trivial) hs
  · intro s pos d s' _ hI hb
    have h := loopBody_cleanup mapId hasRestrictor s pos d hI
    rw [hb] at h
    exact h
  · intro s pos d r _ hI hb
    have h := loopBody_cleanup mapId hasRestrictor s pos d hI
    rw [hb] at h
    exact h

theorem getdeviceLoop_warnings (devices : List libusb_device) (vendor product : Nat) (n : Nat) :
    ∀ (idx : Nat) (acc : List Event × List DeviceEntry), devices.length - idx = n →
      (∀ e ∈ acc.1, ∃ rc, e = Event.warning rc) →
      ∀ e ∈ (getdeviceLoop devices vendor product idx acc).1, ∃ rc, e = Event.warning rc := by
  induction n with
  | zero =>
    intro idx acc hn hacc
    rw [getdeviceLoop, dif_neg (by omega)]
    exact hacc
  | succ n ih =>
    intro idx acc hn hacc
    have hlt : idx < devices.length := by omega
    rw [getdeviceLoop, dif_pos hlt]
    simp only
    split_ifs
    · refine ih (idx + 1) _ (by omega) ?_
      intro e he
      rcases List.mem_append.mp he with he | he
      · exact hacc e he
      · exact ⟨_, List.mem_singleton.mp he⟩
    · exact ih (idx + 1) _ (by omega) hacc
    · exact ih (idx + 1) _ (by omega) hacc

theorem getdevice_warnings (devices : List libusb_device) (vendor product : Nat) :
    ∀ e ∈ (getdevice devices vendor product []).2.1, ∃ rc, e = Event.warning rc := by
  simp only [getdevice]
  exact getdeviceLoop_warnings devices vendor product _ 0 _ rfl (by simp)

theorem cleanupCount_warnings (trace : List Event)
    (h : ∀ e ∈ trace, ∃ rc, e = Event.warning rc) : cleanupCount trace = 0 := by
  simp only [cleanupCount, List.count_eq_zero]
  intro hmem
  obtain ⟨rc, hrc⟩ := h _ hmem
  cases hrc

/-! ## The three ways through `applyU360map` -/

theorem applyU360map_init_failed (world : World) (table : MapTable) (mapId : Int)
    (hasRestrictor : Bool) (h : world.initRc ≠ LIBUSB_SUCCESS) :
    applyU360map world table mapId hasRestrictor =
      errorhandler none none (Event.errorCode world.initRc)
        [Event.libusb_init world.initRc] := by
  simp [applyU360map, h]

theorem applyU360map_not_found (world : World) (table : MapTable) (mapId : Int)
    (hasRestrictor : Bool) (h : world.initRc = LIBUSB_SUCCESS)
    (hf : (getdevice world.bus U360_VENDOR U360_PRODUCT []).1 = false) :
    applyU360map world table mapId hasRestrictor =
      errorhandler (some ()) none (Event.errorMessage "No UltraStik360 devices were found.")
        ([Event.libusb_init world.initRc, Event.libusb_set_debug] ++
          (getdevice world.bus U360_VENDOR U360_PRODUCT []).2.1) := by
  simp [applyU360map, h, hf]

theorem applyU360map_found (world : World) (table : MapTable) (mapId : Int)
    (hasRestrictor : Bool) (h : world.initRc = LIBUSB_SUCCESS)
    (hf : (getdevice world.bus U360_VENDOR U360_PRODUCT []).1 = true) :
    applyU360map world table mapId hasRestrictor =
      match deviceLoop mapId hasRestrictor (loopEntry world table) 0 (devicelistOf world) with
      | Flow.exited r => r
      | Flow.running s' =>
        { trace := s'.trace ++ cleanup s'.context s'.devicehandle, status := EXIT_SUCCESS } := by
  simp [applyU360map, h, hf, loopEntry, devicelistOf]

theorem cleanupCount_loopEntry (world : World) (table : MapTable) :
    cleanupCount (loopEntry world table).trace = 0 := by
  simp only [loopEntry, cleanupCount_append,
    cleanupCount_warnings _ (getdevice_warnings _ _ _)]
  simp [cleanupCount]

/-- C8: on every exit path of `applyU360map` (failed `libusb_init`, no device
found, a fatal open, detach, claim or release error inside the device loop, a
write-count mismatch, full success) `cleanup` is entered exactly once, and it
is the last thing done before the process ends; `cleanup` does not call
`libusb_close` when the handle is null and does not call `libusb_exit` when
the context is null. -/
theorem cleanup_exactly_once (world : World) (table : MapTable) (mapId : Int)
    (hasRestrictor : Bool) :
    cleanupCount (applyU360map world table mapId hasRestrictor).trace = 1 ∧
    cleanedUpOnce (applyU360map world table mapId hasRestrictor).trace ∧
    (∀ context h, Event.libusb_close h ∉ cleanup context none) ∧
    (∀ devicehandle, Event.libusb_exit ∉ cleanup none devicehandle) ∧
    (∀ h, cleanup (some ()) (some h) =
      [Event.cleanup, Event.libusb_close h, Event.libusb_exit]) := by
  have hmain : cleanedUpOnce (applyU360map world table mapId hasRestrictor).trace := by
    by_cases hinit : world.initRc = LIBUSB_SUCCESS
    · cases hf : (getdevice world.bus U360_VENDOR U360_PRODUCT []).1 with
      | false =>
        rw [applyU360map_not_found _ _ _ _ hinit hf]
        refine cleanedUpOnce_errorhandler _ _ _ _ (by simp) ?_
        rw [cleanupCount_append, cleanupCount_warnings _ (getdevice_warnings _ _ _)]
        simp [cleanupCount]
      | true =>
        rw [applyU360map_found _ _ _ _ hinit hf]
        have h := deviceLoop_cleanup mapId hasRestrictor (devicelistOf world)
          (loopEntry world table) 0 (cleanupCount_loopEntry world table)
        cases hd : deviceLoop mapId hasRestrictor (loopEntry world table) 0
            (devicelistOf world) with
        | running s' =>
          rw [hd] at h
          exact ⟨s'.trace, s'.context, s'.devicehandle, h, Or.inl rfl⟩
        | exited r =>
          rw [hd] at h
          exact h
    · rw [applyU360map_init_failed _ _ _ _ hinit]
      exact cleanedUpOnce_errorhandler _ _ _ _ (by simp) (by simp [cleanupCount])
  refine ⟨cleanupCount_of_cleanedUpOnce _ hmain, hmain, ?_, ?_, ?_⟩
  · intro context h
    cases context <;> simp [cleanup]
  · intro devicehandle
    cases devicehandle <;> simp [cleanup]
  · intro h
    rfl

/-! ## Fatal conditions -/

theorem deviceLoop_invariant_at (mapId : Int) (hasRestrictor : Bool)
    (I : Session → Nat → Prop) (Q : Run → Prop) (D : Nat → DeviceEntry → Prop)
    (hrun : ∀ s pos d s', D pos d → I s pos →
      loopBody mapId hasRestrictor s pos d = Flow.running s' → I s' (pos + 1))
    (hexit : ∀ s pos d r, D pos d → I s pos →
      loopBody mapId hasRestrictor s pos d = Flow.exited r → Q r) :
    ∀ (devicelist : List DeviceEntry) (s : Session) (pos : Nat),
      (∀ i d, devicelist[i]? = some d → D (pos + i) d) → I s pos →
      match deviceLoop mapId hasRestrictor s pos devicelist with
      | Flow.running s' => I s' (pos + devicelist.length)
      | Flow.exited r => Q r := by
  intro devicelist
  induction devicelist with
  | nil =>
    intro s pos _ hI
    simpa [deviceLoop] using hI
  | cons d rest ih =>
    intro s pos hD hI
    have hd : D pos d := by simpa using hD 0 d (by simp)
    have hrest : ∀ i x, rest[i]? = some x → D (pos + 1 + i) x := by
      intro i x hx
      have := hD (i + 1) x (by simpa using hx)
      simpa [Nat.add_assoc, Nat.add_comm 1] using this
    rw [deviceLoop]
    cases hb : loopBody mapId hasRestrictor s pos d with
    | running s' =>
      have h := ih s' (pos + 1) hrest (hrun s pos d s' hd hI hb)
      simpa [List.length_cons, Nat.add_assoc, Nat.add_comm 1] using h
    | exited r =>
      exact hexit s pos d r hd hI hb

theorem device_openingEvents (pos : Nat) (d : libusb_device) :
    ∀ e ∈ openingEvents pos d, e.device = some pos := by
  unfold openingEvents
  split_ifs <;> simp [Event.device]

theorem device_cycles (dev : libusb_device) (pos : Nat) (payload : List Nat) (ks : List Nat) :
    ∀ e ∈ ks.flatMap (cycleEvents dev pos payload), ∀ j, e.device = some j → j = pos := by
  intro e he j hj
  simp only [List.mem_flatMap, cycleEvents, List.mem_cons, List.mem_singleton,
    List.not_mem_nil, or_false] at he
  obtain ⟨k, _, he | he⟩ := he
  · rw [he] at hj
    simpa [Event.device] using hj.symm
  · rw [he] at hj
    simp [Event.device] at hj

theorem device_programEvents (hasRestrictor : Bool) (name : String) (payload : List Nat)
    (pos : Nat) (d : DeviceEntry) :
    ∀ e ∈ programEvents hasRestrictor name payload pos d, ∀ j, e.device = some j → j = pos := by
  intro e he j hj
  simp only [programEvents, List.mem_append, List.mem_cons, List.mem_singleton,
    List.not_mem_nil, or_false] at he
  rcases he with (he | he) | he | he
  · have := device_openingEvents pos d.1 e he
    rw [this] at hj
    exact (Option.some.inj hj).symm
  · exact device_cycles d.1 pos payload _ e he j hj
  · rw [he] at hj
    simpa [Event.device] using hj.symm
  · rw [he] at hj
    simpa [Event.device] using hj.symm

theorem device_cleanup (context : Option Unit) (devicehandle : Option Nat) :
    ∀ e ∈ cleanup context devicehandle, e.device = none := by
  cases context <;> cases devicehandle <;> simp [cleanup, Event.device]

theorem device_errorhandler (context : Option Unit) (devicehandle : Option Nat) (err : Event)
    (trace : List Event) (herr : err.device = none) (P : Nat → Prop)
    (htrace : ∀ e ∈ trace, ∀ j, e.device = some j → P j) :
    ∀ e ∈ (errorhandler context devicehandle err trace).trace, ∀ j, e.device = some j → P j := by
  intro e he j hj
  simp only [errorhandler, List.mem_append, List.mem_singleton] at he
  rcases he with ((he | he) | he) | he
  · exact htrace e he j hj
  · rw [he, herr] at hj
    cases hj
  · rw [device_cleanup context devicehandle e he] at hj
    cases hj
  · rw [he] at hj
    simp [Event.device] at hj

theorem device_warnings (trace : List Event) (h : ∀ e ∈ trace, ∃ rc, e = Event.warning rc) :
    ∀ e ∈ trace, e.device = none := by
  intro e he
  obtain ⟨rc, hrc⟩ := h e he
  rw [hrc]
  rfl

theorem device_loopEntry (world : World) (table : MapTable) :
    ∀ e ∈ (loopEntry world table).trace, e.device = none := by
  intro e he
  simp only [loopEntry, List.mem_append, List.mem_cons, List.mem_singleton,
    List.not_mem_nil, or_false] at he
  rcases he with ((he | he) | he) | he
  · rw [he]; rfl
  · rw [he]; rfl
  · exact device_warnings _ (getdevice_warnings _ _ _) e he
  · rw [he]; rfl

theorem mem_transfers_device (trace : List Event) (t : Nat × List Nat)
    (ht : t ∈ transfers trace) : ∃ e ∈ trace, e.device = some t.1 := by
  simp only [transfers, List.mem_filterMap] at ht
  obtain ⟨e, he, hm⟩ := ht
  refine ⟨e, he, ?_⟩
  cases e <;> simp at hm
  rw [← hm]
  rfl

theorem mem_outcomes_device (trace : List Event) (o : Nat × Bool)
    (ho : o ∈ outcomes trace) : ∃ e ∈ trace, e.device = some o.1 := by
  simp only [outcomes, List.mem_filterMap] at ho
  obtain ⟨e, he, hm⟩ := ho
  refine ⟨e, he, ?_⟩
  cases e <;> simp at hm
  rw [← hm]
  rfl

theorem loopBody_status (mapId : Int) (hasRestrictor : Bool) (s : Session) (pos : Nat)
    (d : DeviceEntry) (r : Run) (h : loopBody mapId hasRestrictor s pos d = Flow.exited r) :
    r.status = EXIT_FAILURE := by
  by_cases hc : claimable d.1
  · rw [loopBody_claimable _ _ _ _ _ hc] at h
    split_ifs at h
    cases h
    rfl
  · rw [loopBody_not_claimable _ _ _ _ _ hc] at h
    cases h
    rfl

theorem loopBody_running_not_fatal (mapId : Int) (hasRestrictor : Bool) (s : Session)
    (pos : Nat) (d : DeviceEntry) (s' : Session)
    (h : loopBody mapId hasRestrictor s pos d = Flow.running s') : ¬ fatal d.1 := by
  by_cases hc : claimable d.1
  · rw [loopBody_claimable _ _ _ _ _ hc] at h
    split_ifs at h with hr
    intro hf
    rcases hf with hf | hf
    · exact hf hc
    · exact hr hf
  · rw [loopBody_not_claimable _ _ _ _ _ hc] at h
    cases h

theorem loopBody_device (mapId : Int) (hasRestrictor : Bool) (s : Session) (pos : Nat)
    (d : DeviceEntry) (P : Nat → Prop) (hpos : P pos)
    (hs : ∀ e ∈ s.trace, ∀ j, e.device = some j → P j) :
    ∀ e ∈ (loopBody mapId hasRestrictor s pos d).trace, ∀ j, e.device = some j → P j := by
  have hprog : ∀ name payload, ∀ e ∈ s.trace ++ programEvents hasRestrictor name payload pos d,
      ∀ j, e.device = some j → P j := by
    intro name payload e he j hj
    rcases List.mem_append.mp he with he | he
    · exact hs e he j hj
    · rw [device_programEvents _ _ _ _ _ e he j hj]
      exact hpos
  by_cases hc : claimable d.1
  · rw [loopBody_claimable _ _ _ _ _ hc]
    split_ifs
    · exact device_errorhandler _ _ (Event.errorCode _) _ rfl P (hprog _ _)
    · exact hprog _ _
  · rw [loopBody_not_claimable _ _ _ _ _ hc]
    refine device_errorhandler _ _ (Event.errorCode _) _ rfl P ?_
    intro e he j hj
    rcases List.mem_append.mp he with he | he
    · exact hs e he j hj
    · rw [device_openingEvents pos d.1 e he] at hj
      rw [← Option.some.inj hj]
      exact hpos

theorem deviceLoop_fatal (mapId : Int) (hasRestrictor : Bool) (devicelist : List DeviceEntry)
    (s : Session) (K : Nat) (d : DeviceEntry) (hK : devicelist[K]? = some d)
    (hfatal : fatal d.1) (hs : ∀ e ∈ s.trace, e.device = none) :
    ∃ r, deviceLoop mapId hasRestrictor s 0 devicelist = Flow.exited r ∧
      r.status = EXIT_FAILURE ∧ ∀ e ∈ r.trace, ∀ j, e.device = some j → j ≤ K := by
  have h := deviceLoop_invariant_at mapId hasRestrictor
    (fun s pos => pos ≤ K ∧ ∀ e ∈ s.trace, ∀ j, e.device = some j → j ≤ K)
    (fun r => r.status = EXIT_FAILURE ∧ ∀ e ∈ r.trace, ∀ j, e.device = some j → j ≤ K)
    (fun pos x => pos = K → fatal x.1) ?_ ?_ devicelist s 0 ?_ ?_
  · cases hd : deviceLoop mapId hasRestrictor s 0 devicelist with
    | running s' =>
      rw [hd] at h
      have hlen : K < devicelist.length := by
        by_contra hcon
        rw [List.getElem?_eq_none (by omega)] at hK
        cases hK
      have := h.1
      omega
    | exited r =>
      rw [hd] at h
      exact ⟨r, rfl, h⟩
  · intro s pos x s' hD hI hb
    have hnf := loopBody_running_not_fatal _ _ _ _ _ _ hb
    have hne : pos ≠ K := fun hp => hnf (hD hp)
    refine ⟨by have := hI.1; omega, ?_⟩
    have := loopBody_device mapId hasRestrictor s pos x (fun j => j ≤ K) hI.1 hI.2
    rw [hb] at this
    exact this
  · intro s pos x r _ hI hb
    refine ⟨loopBody_status _ _ _ _ _ _ hb, ?_⟩
    have := loopBody_device mapId hasRestrictor s pos x (fun j => j ≤ K) hI.1 hI.2
    rw [hb] at this
    exact this
  · intro i x hx hi
    have hi' : i = K := by omega
    rw [hi', hK] at hx
    cases hx
    exact hfatal
  · refine ⟨Nat.zero_le K, ?_⟩
    intro e he j hj
    rw [hs e he] at hj
    cases hj

/-- C7: if the locator finds no matching device, the run of `applyU360map`
ends with failure status, no device is opened and no control transfer is
attempted; and if `libusb_open`, `libusb_detach_kernel_driver`,
`libusb_claim_interface` or `libusb_release_interface` fails on the device at
position `K` of `devicelist`, the run ends with failure status and no call is
made, no control transfer is issued and no outcome line is printed for any
device at a position after `K`. -/
theorem fatal_ends_run (world : World) (table : MapTable) (mapId : Int)
    (hasRestrictor : Bool) :
    ((getdevice world.bus U360_VENDOR U360_PRODUCT []).1 = false →
      (applyU360map world table mapId hasRestrictor).status = EXIT_FAILURE ∧
      (∀ dev rc, Event.libusb_open dev rc ∉
        (applyU360map world table mapId hasRestrictor).trace) ∧
      transfers (applyU360map world table mapId hasRestrictor).trace = [] ∧
      outcomes (applyU360map world table mapId hasRestrictor).trace = []) ∧
    (∀ K d, (devicelistOf world)[K]? = some d → fatal d.1 →
      (applyU360map world table mapId hasRestrictor).status = EXIT_FAILURE ∧
      (∀ e ∈ (applyU360map world table mapId hasRestrictor).trace,
        ∀ j, e.device = some j → j ≤ K) ∧
      (∀ t ∈ transfers (applyU360map world table mapId hasRestrictor).trace, t.1 ≤ K) ∧
      (∀ o ∈ outcomes (applyU360map world table mapId hasRestrictor).trace, o.1 ≤ K)) := by
  have hderive : ∀ (r : Run) (P : Nat → Prop),
      (∀ e ∈ r.trace, ∀ j, e.device = some j → P j) →
      (∀ t ∈ transfers r.trace, P t.1) ∧ (∀ o ∈ outcomes r.trace, P o.1) := by
    intro r P h
    constructor
    · intro t ht
      obtain ⟨e, he, hd⟩ := mem_transfers_device _ t ht
      exact h e he _ hd
    · intro o ho
      obtain ⟨e, he, hd⟩ := mem_outcomes_device _ o ho
      exact h e he _ hd
  have hinitfail : world.initRc ≠ LIBUSB_SUCCESS →
      (applyU360map world table mapId hasRestrictor).status = EXIT_FAILURE ∧
      ∀ e ∈ (applyU360map world table mapId hasRestrictor).trace,
        ∀ j, e.device = some j → False := by
    intro hinit
    rw [applyU360map_init_failed _ _ _ _ hinit]
    refine ⟨rfl, device_errorhandler _ _ (Event.errorCode _) _ rfl (fun _ => False) ?_⟩
    simp [Event.device]
  constructor
  · intro hf
    have hnone : (applyU360map world table mapId hasRestrictor).status = EXIT_FAILURE ∧
        ∀ e ∈ (applyU360map world table mapId hasRestrictor).trace,
          ∀ j, e.device = some j → False := by
      by_cases hinit : world.initRc = LIBUSB_SUCCESS
      · rw [applyU360map_not_found _ _ _ _ hinit hf]
        refine ⟨rfl, device_errorhandler _ _ (Event.errorMessage _) _ rfl (fun _ => False) ?_⟩
        intro e he j hj
        simp only [List.mem_append, List.mem_cons, List.mem_singleton, List.not_mem_nil,
          or_false] at he
        rcases he with (he | he) | he
        · rw [he] at hj; cases hj
        · rw [he] at hj; cases hj
        · rw [device_warnings _ (getdevice_warnings _ _ _) e he] at hj
          cases hj
      · exact hinitfail hinit
    obtain ⟨hstatus, hdev⟩ := hnone
    obtain ⟨ht, ho⟩ := hderive _ (fun _ => False) hdev
    refine ⟨hstatus, ?_, ?_, ?_⟩
    · intro dev rc hmem
      exact hdev _ hmem dev rfl
    · exact List.eq_nil_iff_forall_not_mem.mpr (fun t htm => ht t htm)
    · exact List.eq_nil_iff_forall_not_mem.mpr (fun o hom => ho o hom)
  · intro K d hK hfatal
    have hmain : (applyU360map world table mapId hasRestrictor).status = EXIT_FAILURE ∧
        ∀ e ∈ (applyU360map world table mapId hasRestrictor).trace,
          ∀ j, e.device = some j → j ≤ K := by
      by_cases hinit : world.initRc = LIBUSB_SUCCESS
      · cases hf : (getdevice world.bus U360_VENDOR U360_PRODUCT []).1 with
        | false =>
          have hempty : devicelistOf world = [] := by
            have : (getdevice world.bus U360_VENDOR U360_PRODUCT []).1 =
                !(devicelistOf world).isEmpty := rfl
            rw [hf] at this
            simpa using this.symm
          rw [hempty] at hK
          simp at hK
        | true =>
          rw [applyU360map_found _ _ _ _ hinit hf]
          obtain ⟨r, hr, hstatus, hdev⟩ := deviceLoop_fatal mapId hasRestrictor
            (devicelistOf world) (loopEntry world table) K d hK hfatal
            (device_loopEntry world table)
          rw [hr]
          exact ⟨hstatus, hdev⟩
      · obtain ⟨h1, h2⟩ := hinitfail hinit
        exact ⟨h1, fun e he j hj => (h2 e he j hj).elim⟩
    obtain ⟨hstatus, hdev⟩ := hmain
    obtain ⟨ht, ho⟩ := hderive _ (fun j => j ≤ K) hdev
    exact ⟨hstatus, hdev, ht, ho⟩

/-! ## Transfers and outcome lines of a run -/

theorem transfers_append (a b : List Event) :
    transfers (a ++ b) = transfers a ++ transfers b := by
  simp [transfers]

theorem outcomes_append (a b : List Event) :
    outcomes (a ++ b) = outcomes a ++ outcomes b := by
  simp [outcomes]

theorem transfers_openingEvents (pos : Nat) (d : libusb_device) :
    transfers (openingEvents pos d) = [] := by
  unfold openingEvents
  split_ifs <;> simp [transfers]

theorem outcomes_openingEvents (pos : Nat) (d : libusb_device) :
    outcomes (openingEvents pos d) = [] := by
  unfold openingEvents
  split_ifs <;> simp [outcomes]

theorem transfers_cycles (dev : libusb_device) (pos : Nat) (payload : List Nat)
    (ks : List Nat) :
    transfers (ks.flatMap (cycleEvents dev pos payload)) =
      ks.map (fun k => (pos, valarraySlice payload (U360_MESG_LENGTH * k) U360_MESG_LENGTH 1)) := by
  induction ks with
  | nil => rfl
  | cons k ks ih =>
    rw [List.flatMap_cons, transfers_append, ih]
    simp [cycleEvents, transfers]

theorem outcomes_cycles (dev : libusb_device) (pos : Nat) (payload : List Nat)
    (ks : List Nat) :
    outcomes (ks.flatMap (cycleEvents dev pos payload)) = [] := by
  induction ks with
  | nil => rfl
  | cons k ks ih =>
    rw [List.flatMap_cons, outcomes_append, ih]
    simp [cycleEvents, outcomes]

theorem transfers_programEvents (hasRestrictor : Bool) (name : String) (payload : List Nat)
    (pos : Nat) (d : DeviceEntry) :
    transfers (programEvents hasRestrictor name payload pos d) =
      (slices payload).map (fun f => (pos, f)) := by
  simp only [programEvents, transfers_append, transfers_openingEvents, transfers_cycles]
  simp [transfers, slices]

theorem outcomes_programEvents (hasRestrictor : Bool) (name : String) (payload : List Nat)
    (pos : Nat) (d : DeviceEntry) :
    outcomes (programEvents hasRestrictor name payload pos d) =
      [(pos, decide (accumulate 0 (transferResults d.1) = 96))] := by
  simp only [programEvents, outcomes_append, outcomes_openingEvents, outcomes_cycles]
  simp [outcomes]

theorem transfers_errorhandler (context : Option Unit) (devicehandle : Option Nat) (err : Event)
    (trace : List Event) (herr : err.device = none) :
    transfers (errorhandler context devicehandle err trace).trace = transfers trace := by
  simp only [errorhandler, transfers_append]
  have h1 : transfers [err] = [] := by
    cases err <;> simp [transfers]
    simp [Event.device] at herr
  have h2 : transfers (cleanup context devicehandle) = [] := by
    cases context <;> cases devicehandle <;> simp [cleanup, transfers]
  have h3 : transfers [Event.exit EXIT_FAILURE] = [] := by
    simp [transfers]
  rw [h1, h2, h3]
  simp

theorem outcomes_errorhandler (context : Option Unit) (devicehandle : Option Nat) (err : Event)
    (trace : List Event) (herr : err.device = none) :
    outcomes (errorhandler context devicehandle err trace).trace = outcomes trace := by
  simp only [errorhandler, outcomes_append]
  have h1 : outcomes [err] = [] := by
    cases err <;> simp [outcomes]
    simp [Event.device] at herr
  have h2 : outcomes (cleanup context devicehandle) = [] := by
    cases context <;> cases devicehandle <;> simp [cleanup, outcomes]
  have h3 : outcomes [Event.exit EXIT_FAILURE] = [] := by
    simp [outcomes]
  rw [h1, h2, h3]
  simp

theorem patchPayload_idem (payload : List Nat) (hasRestrictor : Bool) :
    patchPayload (patchPayload payload hasRestrictor) hasRestrictor =
      patchPayload payload hasRestrictor := by
  simp [patchPayload, List.set_set]

theorem patchTable_payload (table : MapTable) (mapId : Int) (hasRestrictor : Bool) :
    (patchTable table mapId hasRestrictor mapId).payload =
      patchPayload (table mapId).payload hasRestrictor := by
  simp [patchTable]

theorem patchTable_name (table : MapTable) (mapId : Int) (hasRestrictor : Bool) :
    (patchTable table mapId hasRestrictor mapId).name = (table mapId).name := by
  simp [patchTable]

theorem deviceLoop_transfers (mapId : Int) (hasRestrictor : Bool) (P : List Nat) :
    ∀ (devicelist : List DeviceEntry) (s : Session) (pos : Nat),
      patchPayload (s.table mapId).payload hasRestrictor = P →
      transfers (deviceLoop mapId hasRestrictor s pos devicelist).trace =
        transfers s.trace ++
          (List.range' pos (programmed devicelist)).flatMap
            (fun h => (slices P).map (fun f => (h, f))) := by
  intro devicelist
  induction devicelist with
  | nil =>
    intro s pos _
    simp [deviceLoop, Flow.trace, programmed]
  | cons d rest ih =>
    intro s pos hP
    rw [deviceLoop]
    by_cases hc : claimable d.1
    · rw [loopBody_claimable _ _ _ _ _ hc]
      by_cases hr : d.1.releaseRc = LIBUSB_SUCCESS
      · rw [if_neg (not_not.mpr hr)]
        simp only
        rw [ih _ (pos + 1) (by
          simp only [patchTable_payload, patchPayload_idem]
          exact hP)]
        simp only [transfers_append, transfers_programEvents, hP, programmed, if_pos hc,
          if_pos hr, List.range'_succ, List.flatMap_cons, List.append_assoc]
      · rw [if_pos hr]
        simp only [Flow.trace]
        rw [transfers_errorhandler _ _ (Event.errorCode _) _ rfl]
        simp [transfers_append, transfers_programEvents, hP, programmed, hc, hr]
    · rw [loopBody_not_claimable _ _ _ _ _ hc]
      simp only [Flow.trace]
      rw [transfers_errorhandler _ _ (Event.errorCode _) _ rfl]
      simp [transfers_append, transfers_openingEvents, programmed, hc]

theorem deviceLoop_outcomes (mapId : Int) (hasRestrictor : Bool) :
    ∀ (devicelist : List DeviceEntry) (s : Session) (pos : Nat),
      outcomes (deviceLoop mapId hasRestrictor s pos devicelist).trace =
        outcomes s.trace ++
          ((devicelist.enumFrom pos).take (programmed devicelist)).map
            (fun p => (p.1, decide (accumulate 0 (transferResults p.2.1) = 96))) := by
  intro devicelist
  induction devicelist with
  | nil =>
    intro s pos
    simp [deviceLoop, Flow.trace, programmed]
  | cons d rest ih =>
    intro s pos
    rw [deviceLoop]
    by_cases hc : claimable d.1
    · rw [loopBody_claimable _ _ _ _ _ hc]
      by_cases hr : d.1.releaseRc = LIBUSB_SUCCESS
      · rw [if_neg (not_not.mpr hr)]
        simp only
        rw [ih _ (pos + 1)]
        simp only [outcomes_append, outcomes_programEvents, programmed, if_pos hc,
          if_pos hr, List.enumFrom_cons, List.take_succ_cons, List.map_cons,
          List.append_assoc, List.singleton_append]
      · rw [if_pos hr]
        simp only [Flow.trace]
        rw [outcomes_errorhandler _ _ (Event.errorCode _) _ rfl]
        simp [outcomes_append, outcomes_programEvents, programmed, hc, hr]
    · rw [loopBody_not_claimable _ _ _ _ _ hc]
      simp only [Flow.trace]
      rw [outcomes_errorhandler _ _ (Event.errorCode _) _ rfl]
      simp [outcomes_append, outcomes_openingEvents, programmed, hc]

theorem transfers_of_no_device (trace : List Event) (h : ∀ e ∈ trace, e.device = none) :
    transfers trace = [] := by
  refine List.eq_nil_iff_forall_not_mem.mpr (fun t ht => ?_)
  obtain ⟨e, he, hd⟩ := mem_transfers_device _ t ht
  rw [h e he] at hd
  cases hd

theorem outcomes_of_no_device (trace : List Event) (h : ∀ e ∈ trace, e.device = none) :
    outcomes trace = [] := by
  refine List.eq_nil_iff_forall_not_mem.mpr (fun o ho => ?_)
  obtain ⟨e, he, hd⟩ := mem_outcomes_device _ o ho
  rw [h e he] at hd
  cases hd

theorem devicelistOf_eq_nil (world : World)
    (hf : (getdevice world.bus U360_VENDOR U360_PRODUCT []).1 = false) :
    devicelistOf world = [] := by
  have : (getdevice world.bus U360_VENDOR U360_PRODUCT []).1 =
      !(devicelistOf world).isEmpty := rfl
  rw [hf] at this
  simpa using this.symm

theorem applyU360map_transfers (world : World) (table : MapTable) (mapId : Int)
    (hasRestrictor : Bool) (hinit : world.initRc = LIBUSB_SUCCESS) :
    transfers (applyU360map world table mapId hasRestrictor).trace =
      (List.range' 0 (programmed (devicelistOf world))).flatMap
        (fun h => (slices (patchPayload (table mapId).payload hasRestrictor)).map
          (fun f => (h, f))) := by
  cases hf : (getdevice world.bus U360_VENDOR U360_PRODUCT []).1 with
  | false =>
    rw [applyU360map_not_found _ _ _ _ hinit hf,
      transfers_errorhandler _ _ (Event.errorMessage _) _ rfl, devicelistOf_eq_nil world hf]
    rw [transfers_append,
      transfers_of_no_device _ (device_warnings _ (getdevice_warnings _ _ _))]
    simp [transfers, programmed]
  | true =>
    rw [applyU360map_found _ _ _ _ hinit hf]
    have h := deviceLoop_transfers mapId hasRestrictor
      (patchPayload (table mapId).payload hasRestrictor) (devicelistOf world)
      (loopEntry world table) 0 rfl
    rw [transfers_of_no_device _ (device_loopEntry world table), List.nil_append] at h
    cases hd : deviceLoop mapId hasRestrictor (loopEntry world table) 0
        (devicelistOf world) with
    | running s' =>
      rw [hd] at h
      simp only [Flow.trace] at h
      simp only [transfers_append, h]
      rw [transfers_of_no_device _ (device_cleanup _ _), List.append_nil]
    | exited r =>
      rw [hd] at h
      exact h

theorem applyU360map_outcomes (world : World) (table : MapTable) (mapId : Int)
    (hasRestrictor : Bool) (hinit : world.initRc = LIBUSB_SUCCESS) :
    outcomes (applyU360map world table mapId hasRestrictor).trace =
      (((devicelistOf world).enumFrom 0).take (programmed (devicelistOf world))).map
        (fun p => (p.1, decide (accumulate 0 (transferResults p.2.1) = 96))) := by
  cases hf : (getdevice world.bus U360_VENDOR U360_PRODUCT []).1 with
  | false =>
    rw [applyU360map_not_found _ _ _ _ hinit hf,
      outcomes_errorhandler _ _ (Event.errorMessage _) _ rfl, devicelistOf_eq_nil world hf]
    rw [outcomes_append,
      outcomes_of_no_device _ (device_warnings _ (getdevice_warnings _ _ _))]
    simp [outcomes, programmed]
  | true =>
    rw [applyU360map_found _ _ _ _ hinit hf]
    have h := deviceLoop_outcomes mapId hasRestrictor (devicelistOf world)
      (loopEntry world table) 0
    rw [outcomes_of_no_device _ (device_loopEntry world table), List.nil_append] at h
    cases hd : deviceLoop mapId hasRestrictor (loopEntry world table) 0
        (devicelistOf world) with
    | running s' =>
      rw [hd] at h
      simp only [Flow.trace] at h
      simp only [outcomes_append, h]
      rw [outcomes_of_no_device _ (device_cleanup _ _), List.append_nil]
    | exited r =>
      rw [hd] at h
      exact h

theorem applyU360map_no_init (world : World) (table : MapTable) (mapId : Int)
    (hasRestrictor : Bool) (hinit : world.initRc ≠ LIBUSB_SUCCESS) :
    transfers (applyU360map world table mapId hasRestrictor).trace = [] ∧
    outcomes (applyU360map world table mapId hasRestrictor).trace = [] := by
  rw [applyU360map_init_failed _ _ _ _ hinit,
    transfers_errorhandler _ _ (Event.errorCode _) _ rfl,
    outcomes_errorhandler _ _ (Event.errorCode _) _ rfl]
  simp [transfers, outcomes]

/-! ## Frames -/

theorem valarraySlice_eq_take_drop (v : List Nat) (start size : Nat)
    (h : start + size ≤ v.length) :
    valarraySlice v start size 1 = (v.drop start).take size := by
  apply List.ext_getElem?
  intro i
  by_cases hi : i < size
  · have h1 : start + i < v.length := by omega
    simp [valarraySlice, List.getElem?_take, hi, List.getD_eq_getElem?_getD,
      List.getElem?_eq_getElem h1]
  · simp [valarraySlice, List.getElem?_take, hi]
    omega

theorem slices_eq_specFrames (payload : List Nat) (h : payload.length = 96) :
    slices payload = specFrames payload := by
  simp only [slices, specFrames, U360_WRITE_CYCLES, U360_MESG_LENGTH]
  apply List.map_congr_left
  intro k hk
  rw [List.mem_range] at hk
  exact valarraySlice_eq_take_drop payload (4 * k) 4 (by omega)

theorem flatten_frames (payload : List Nat) (n : Nat) (h : 4 * n ≤ payload.length) :
    ((List.range n).map (specFrame payload)).flatten = payload.take (4 * n) := by
  induction n with
  | zero => simp
  | succ n ih =>
    rw [List.range_succ, List.map_append, List.flatten_append, ih (by omega)]
    simp only [List.map_cons, List.map_nil, List.flatten_cons, List.flatten_nil,
      List.append_nil, specFrame]
    rw [show 4 * (n + 1) = 4 * n + 4 by ring, List.take_add]

theorem specFrames_flatten (payload : List Nat) (h : payload.length = 96) :
    (specFrames payload).flatten = payload := by
  rw [specFrames, flatten_frames payload 24 (by omega)]
  exact List.take_of_length_le (by omega)

theorem specFrames_getElem? (payload : List Nat) (h : payload.length = 96) (k : Nat)
    (hk : k < 24) :
    (specFrames payload)[k]? =
      some [payload.getD (4 * k) 0, payload.getD (4 * k + 1) 0, payload.getD (4 * k + 2) 0,
        payload.getD (4 * k + 3) 0] := by
  have h4 : List.range 4 = [0, 1, 2, 3] := by decide
  rw [← slices_eq_specFrames payload h]
  simp only [slices, U360_WRITE_CYCLES, U360_MESG_LENGTH, List.getElem?_map,
    List.getElem?_range hk, Option.map_some', valarraySlice, h4, List.map_cons, List.map_nil]
  simp

theorem framesSent_flatMap (fs : List (List Nat)) (K : Nat) (n : Nat) :
    ∀ pos : Nat,
      (((List.range' pos n).flatMap (fun h => fs.map (fun f => (h, f)))).filter
        (fun t => t.1 = K)).map (fun t => t.2) =
      if pos ≤ K ∧ K < pos + n then fs else [] := by
  induction n with
  | zero =>
    intro pos
    simp
  | succ n ih =>
    intro pos
    rw [List.range'_succ, List.flatMap_cons, List.filter_append, List.map_append, ih (pos + 1)]
    by_cases hK : pos = K
    · subst hK
      have h1 : (List.filter (fun t => decide (t.1 = pos)) (fs.map (fun f => (pos, f)))).map
          (fun t => t.2) = fs := by
        rw [List.filter_eq_self.mpr (by simp)]
        simp
      rw [h1, if_neg (by omega), if_pos (by omega), List.append_nil]
    · have h1 : List.filter (fun t => decide (t.1 = K)) (fs.map (fun f => (pos, f))) = [] := by
        rw [List.filter_eq_nil_iff]
        simp [hK]
      rw [h1, List.map_nil, List.nil_append]
      by_cases h2 : pos + 1 ≤ K ∧ K < pos + 1 + n
      · rw [if_pos h2, if_pos (by omega)]
      · rw [if_neg h2, if_neg (by omega)]

theorem applyU360map_framesSent (world : World) (table : MapTable) (mapId : Int)
    (hasRestrictor : Bool) (hinit : world.initRc = LIBUSB_SUCCESS) (K : Nat) :
    framesSent K (applyU360map world table mapId hasRestrictor).trace =
      if K < programmed (devicelistOf world) then
        slices (patchPayload (table mapId).payload hasRestrictor)
      else [] := by
  rw [framesSent, applyU360map_transfers _ _ _ _ hinit, framesSent_flatMap]
  simp

theorem programmed_gt (devicelist : List DeviceEntry) :
    ∀ (K : Nat) (d : DeviceEntry), devicelist[K]? = some d →
      (∀ j x, j < K → devicelist[j]? = some x → ¬ fatal x.1) → claimable d.1 →
      K < programmed devicelist := by
  induction devicelist with
  | nil =>
    intro K d hK
    simp at hK
  | cons x rest ih =>
    intro K d hK hbefore hc
    cases K with
    | zero =>
      simp at hK
      subst hK
      simp only [programmed, if_pos hc]
      split_ifs <;> omega
    | succ K =>
      have hx : ¬ fatal x.1 := hbefore 0 x (by omega) (by simp)
      have hxc : claimable x.1 := by
        by_contra hcon
        exact hx (Or.inl hcon)
      have hxr : x.1.releaseRc = LIBUSB_SUCCESS := by
        by_contra hcon
        exact hx (Or.inr hcon)
      simp only [programmed, if_pos hxc, if_pos hxr]
      have := ih K d (by simpa using hK)
        (fun j y hj hy => hbefore (j + 1) y (by omega) (by simpa using hy)) hc
      omega

theorem programmed_eq_length (devicelist : List DeviceEntry)
    (h : ∀ d ∈ devicelist, ¬ fatal d.1) : programmed devicelist = devicelist.length := by
  induction devicelist with
  | nil => rfl
  | cons x rest ih =>
    have hx : ¬ fatal x.1 := h x (List.mem_cons_self x rest)
    have hxc : claimable x.1 := by
      by_contra hcon
      exact hx (Or.inl hcon)
    have hxr : x.1.releaseRc = LIBUSB_SUCCESS := by
      by_contra hcon
      exact hx (Or.inr hcon)
    simp only [programmed, if_pos hxc, if_pos hxr, List.length_cons]
    rw [ih (fun d hd => h d (List.mem_cons_of_mem x hd))]

theorem patchPayload_length (payload : List Nat) (hasRestrictor : Bool) :
    (patchPayload payload hasRestrictor).length = payload.length := by
  simp [patchPayload]

/-- C2: in a run of `applyU360map` with a 96-byte payload for the selected
map, for every device of `devicelist` that is reached, opened and claimed, the
write loop issues exactly 24 control transfers on its handle; the transfer
number `k` (0..23, in send order) carries exactly the 4 bytes at offsets
`4k .. 4k+3` of the restrictor-patched payload, and the 24 frames concatenated
in send order are the patched payload. -/
theorem write_loop_frames (world : World) (table : MapTable) (mapId : Int)
    (hasRestrictor : Bool) (K : Nat) (d : DeviceEntry)
    (hinit : world.initRc = LIBUSB_SUCCESS)
    (hlen : (table mapId).payload.length = 96)
    (hK : (devicelistOf world)[K]? = some d)
    (hbefore : ∀ j x, j < K → (devicelistOf world)[j]? = some x → ¬ fatal x.1)
    (hclaim : claimable d.1) :
    framesSent K (applyU360map world table mapId hasRestrictor).trace =
      specFrames (patchPayload (table mapId).payload hasRestrictor) ∧
    (framesSent K (applyU360map world table mapId hasRestrictor).trace).length = 24 ∧
    (∀ k, k < 24 →
      (framesSent K (applyU360map world table mapId hasRestrictor).trace)[k]? =
        some [(patchPayload (table mapId).payload hasRestrictor).getD (4 * k) 0,
          (patchPayload (table mapId).payload hasRestrictor).getD (4 * k + 1) 0,
          (patchPayload (table mapId).payload hasRestrictor).getD (4 * k + 2) 0,
          (patchPayload (table mapId).payload hasRestrictor).getD (4 * k + 3) 0]) ∧
    (framesSent K (applyU360map world table mapId hasRestrictor).trace).flatten =
      patchPayload (table mapId).payload hasRestrictor := by
  have hl : (patchPayload (table mapId).payload hasRestrictor).length = 96 := by
    rw [patchPayload_length, hlen]
  have hsent : framesSent K (applyU360map world table mapId hasRestrictor).trace =
      specFrames (patchPayload (table mapId).payload hasRestrictor) := by
    rw [applyU360map_framesSent _ _ _ _ hinit,
      if_pos (programmed_gt _ K d hK hbefore hclaim), slices_eq_specFrames _ hl]
  refine ⟨hsent, ?_, ?_, ?_⟩
  · rw [hsent]
    simp [specFrames]
  · intro k hk
    rw [hsent]
    exact specFrames_getElem? _ hl k hk
  · rw [hsent]
    exact specFrames_flatten _ hl

theorem loopBody_running_table (mapId : Int) (hasRestrictor : Bool) (s : Session) (pos : Nat)
    (d : DeviceEntry) (s' : Session)
    (h : loopBody mapId hasRestrictor s pos d = Flow.running s') :
    s'.table = patchTable s.table mapId hasRestrictor := by
  by_cases hc : claimable d.1
  · rw [loopBody_claimable _ _ _ _ _ hc] at h
    split_ifs at h
    cases h
    rfl
  · rw [loopBody_not_claimable _ _ _ _ _ hc] at h
    cases h

/-- C3: for every map id (1..9 included) and every 96-byte payload, the
restrictor patch of `applyU360map` stores 0x10 at offset 2 of the payload of
the selected map when `hasRestrictor` is true and 0x09 otherwise, and changes
neither the length nor a byte at another offset; an iteration of the device
loop that runs to its end leaves the table with exactly this patch applied to
the selected entry and the other entries untouched; and the frames sent to any
device of the run, however many devices are processed, add up to this same
patched payload. -/
theorem restrictor_patch (world : World) (table : MapTable) (mapId : Int)
    (hasRestrictor : Bool) (hlen : (table mapId).payload.length = 96) :
    (patchPayload (table mapId).payload hasRestrictor).length = 96 ∧
    (patchPayload (table mapId).payload hasRestrictor)[2]? =
      some (if hasRestrictor then 0x10 else 0x09) ∧
    (∀ i, i ≠ 2 →
      (patchPayload (table mapId).payload hasRestrictor)[i]? = (table mapId).payload[i]?) ∧
    (∀ s pos d s', loopBody mapId hasRestrictor s pos d = Flow.running s' →
      (s'.table mapId).payload = patchPayload (s.table mapId).payload hasRestrictor ∧
      (s'.table mapId).name = (s.table mapId).name ∧
      ∀ i, i ≠ mapId → s'.table i = s.table i) ∧
    (∀ h, framesSent h (applyU360map world table mapId hasRestrictor).trace = [] ∨
      (framesSent h (applyU360map world table mapId hasRestrictor).trace).flatten =
        patchPayload (table mapId).payload hasRestrictor) := by
  have hl : (patchPayload (table mapId).payload hasRestrictor).length = 96 := by
    rw [patchPayload_length, hlen]
  refine ⟨hl, ?_, ?_, ?_, ?_⟩
  · simp [patchPayload, restrictorByte, List.getElem?_set, hlen]
  · intro i hi
    simp [patchPayload, List.getElem?_set, Ne.symm hi]
  · intro s pos d s' hb
    rw [loopBody_running_table _ _ _ _ _ _ hb]
    refine ⟨patchTable_payload _ _ _, patchTable_name _ _ _, ?_⟩
    intro i hi
    simp [patchTable, hi]
  · intro h
    by_cases hinit : world.initRc = LIBUSB_SUCCESS
    · rw [applyU360map_framesSent _ _ _ _ hinit]
      split_ifs
      · right
        rw [slices_eq_specFrames _ hl]
        exact specFrames_flatten _ hl
      · left
        rfl
    · left
      rw [framesSent, (applyU360map_no_init _ _ _ _ hinit).1]
      rfl

/-! ## The accumulated return value -/

theorem wrapInt_of_range (x : Int) (h1 : INT_MIN ≤ x) (h2 : x ≤ INT_MAX) : wrapInt x = x := by
  simp only [INT_MIN, INT_MAX] at h1 h2
  simp only [wrapInt]
  rw [Int.emod_eq_of_lt (by omega) (by omega)]
  omega

theorem accumulate_eq_sum (rs : List Int) :
    ∀ acc : Int, noOverflow acc rs → accumulate acc rs = acc + rs.sum := by
  induction rs with
  | nil =>
    intro acc _
    simp [accumulate]
  | cons r rs ih =>
    intro acc h
    obtain ⟨⟨h1, h2⟩, h3⟩ := h
    have hstep : accumulate acc (r :: rs) = accumulate (wrapInt (acc + r)) rs := rfl
    rw [hstep, wrapInt_of_range _ h1 h2, ih _ h3, List.sum_cons]
    ring

theorem noOverflow_of_bounds (rs : List Int) :
    ∀ acc : Int, (∀ r ∈ rs, -99 ≤ r ∧ r ≤ 4) →
      INT_MIN + 99 * rs.length ≤ acc → acc + 4 * rs.length ≤ INT_MAX → noOverflow acc rs := by
  induction rs with
  | nil =>
    intro acc _ _ _
    trivial
  | cons r rs ih =>
    intro acc h hlo hhi
    have hr := h r (List.mem_cons_self r rs)
    simp only [List.length_cons, Nat.cast_add, Nat.cast_one] at hlo hhi
    simp only [INT_MIN, INT_MAX] at hlo hhi
    refine ⟨⟨by simp only [INT_MIN]; omega, by simp only [INT_MAX]; omega⟩,
      ih _ (fun x hx => h x (List.mem_cons_of_mem r hx)) ?_ ?_⟩
    · simp only [INT_MIN]; omega
    · simp only [INT_MAX]; omega

theorem noOverflow_of_libusb (dev : libusb_device)
    (h : ∀ k, k < 24 → -99 ≤ dev.transferRc k ∧ dev.transferRc k ≤ 4) :
    noOverflow 0 (transferResults dev) := by
  apply noOverflow_of_bounds
  · intro r hr
    simp only [transferResults, U360_WRITE_CYCLES, List.mem_map, List.mem_range] at hr
    obtain ⟨k, hk, rfl⟩ := hr
    exact h k hk
  · simp [transferResults, U360_WRITE_CYCLES, INT_MIN]
  · simp [transferResults, U360_WRITE_CYCLES, INT_MAX]

theorem sum_le_of_le_four (rs : List Int) (h : ∀ r ∈ rs, r ≤ 4) :
    rs.sum ≤ 4 * rs.length ∧ (rs.sum = 4 * rs.length → ∀ r ∈ rs, r = 4) := by
  induction rs with
  | nil => simp
  | cons r rs ih =>
    have hr : r ≤ 4 := h r (List.mem_cons_self r rs)
    obtain ⟨ih1, ih2⟩ := ih (fun x hx => h x (List.mem_cons_of_mem r hx))
    simp only [List.sum_cons, List.length_cons, Nat.cast_add, Nat.cast_one]
    constructor
    · omega
    · intro hsum x hx
      have hr4 : r = 4 := by omega
      rcases List.mem_cons.mp hx with hx | hx
      · rw [hx, hr4]
      · exact ih2 (by omega) x hx

theorem range_sum_eq_96_iff (f : Nat → Int) (h4 : ∀ k, k < 24 → f k ≤ 4) :
    ((List.range 24).map f).sum = 96 ↔ ∀ k, k < 24 → f k = 4 := by
  have hlen : ((List.range 24).map f).length = 24 := by simp
  have hall : ∀ r ∈ (List.range 24).map f, r ≤ 4 := by
    intro r hr
    simp only [List.mem_map, List.mem_range] at hr
    obtain ⟨k, hk, rfl⟩ := hr
    exact h4 k hk
  obtain ⟨_, h2⟩ := sum_le_of_le_four _ hall
  constructor
  · intro hsum k hk
    refine h2 (by rw [hsum, hlen]; norm_num) _ ?_
    simp only [List.mem_map, List.mem_range]
    exact ⟨k, hk, rfl⟩
  · intro hall4
    have : (List.range 24).map f = List.replicate 24 4 := by
      apply List.ext_getElem
      · simp
      · intro i h1 _
        simp only [List.getElem_map, List.getElem_range, List.getElem_replicate]
        exact hall4 i (by simpa using h1)
    rw [this]
    simp

theorem sum_eq_96_iff (dev : libusb_device) (h4 : ∀ k, k < 24 → dev.transferRc k ≤ 4) :
    (transferResults dev).sum = 96 ↔ ∀ k, k < 24 → dev.transferRc k = 4 :=
  range_sum_eq_96_iff dev.transferRc h4

theorem bytes_eq_96_iff (dev : libusb_device) (h4 : ∀ k, k < 24 → dev.transferRc k ≤ 4) :
    ((transferResults dev).map bytesWritten).sum = 96 ↔ (transferResults dev).sum = 96 := by
  rw [sum_eq_96_iff dev h4]
  have hmap : (transferResults dev).map bytesWritten =
      (List.range 24).map (fun k => bytesWritten (dev.transferRc k)) := by
    simp [transferResults, U360_WRITE_CYCLES]
  rw [hmap, range_sum_eq_96_iff _ (by
    intro k hk
    have := h4 k hk
    simp only [bytesWritten]
    split_ifs <;> omega)]
  constructor
  · intro h k hk
    have := h k hk
    simp only [bytesWritten] at this
    split_ifs at this <;> omega
  · intro h k hk
    rw [h k hk]
    rfl

/-! ## Outcome lines -/

theorem deviceLoop_not_fatal (mapId : Int) (hasRestrictor : Bool) :
    ∀ (devicelist : List DeviceEntry) (s : Session) (pos : Nat),
      (∀ d ∈ devicelist, ¬ fatal d.1) →
      ∃ s', deviceLoop mapId hasRestrictor s pos devicelist = Flow.running s' := by
  intro devicelist
  induction devicelist with
  | nil =>
    intro s pos _
    exact ⟨s, rfl⟩
  | cons x rest ih =>
    intro s pos h
    have hx : ¬ fatal x.1 := h x (List.mem_cons_self x rest)
    have hxc : claimable x.1 := by
      by_contra hcon
      exact hx (Or.inl hcon)
    have hxr : x.1.releaseRc = LIBUSB_SUCCESS := by
      by_contra hcon
      exact hx (Or.inr hcon)
    rw [deviceLoop, loopBody_claimable _ _ _ _ _ hxc, if_neg (not_not.mpr hxr)]
    exact ih _ (pos + 1) (fun d hd => h d (List.mem_cons_of_mem x hd))

theorem next_outcome (world : World) (table : MapTable) (mapId : Int) (hasRestrictor : Bool)
    (hinit : world.initRc = LIBUSB_SUCCESS) (K : Nat) (d : DeviceEntry)
    (hK : (devicelistOf world)[K]? = some d)
    (hbefore : ∀ j x, j < K → (devicelistOf world)[j]? = some x → ¬ fatal x.1)
    (hclaim : claimable d.1) :
    (K, decide (accumulate 0 (transferResults d.1) = 96)) ∈
      outcomes (applyU360map world table mapId hasRestrictor).trace := by
  rw [applyU360map_outcomes _ _ _ _ hinit, List.mem_map]
  refine ⟨(K, d), ?_, rfl⟩
  apply List.getElem?_mem (n := K)
  rw [List.getElem?_take_of_lt (programmed_gt _ K d hK hbefore hclaim)]
  have := List.getElem?_enum (devicelistOf world) K
  rw [List.enum] at this
  rw [this, hK]
  rfl

theorem outcome_flag (d : DeviceEntry) (h : noOverflow 0 (transferResults d.1)) :
    decide (accumulate 0 (transferResults d.1) = 96) = specOutcome d := by
  rw [accumulate_eq_sum _ 0 h, specOutcome]
  simp

/-- C4: in every run of `applyU360map` in which no `rc +=` of a write loop
overflows `int`, the outcome lines are those of the first `programmed`
devices of `devicelist`, one line per device in list order, and the line of a
device says SUCCESS if and only if the return values of its 24 transfers add
up to 96 (which, when no transfer returns more than the 4 bytes asked for, is
to say that the bytes written add up to 96); any other sum gives FAILURE.
How many devices get a line depends on the fatal calls only, not on the
outcomes: whatever line the devices up to position `K` got, the device at
position `K + 1` gets its own line when no open, detach, claim or release
failed up to `K` and it can be claimed; and when no such call fails at all,
every device of the list gets its line and the run ends with success
status. -/
theorem outcome_lines (world : World) (table : MapTable) (mapId : Int) (hasRestrictor : Bool)
    (hno : ∀ d ∈ devicelistOf world, noOverflow 0 (transferResults d.1)) :
    outcomes (applyU360map world table mapId hasRestrictor).trace =
      (if world.initRc = LIBUSB_SUCCESS then
        (((devicelistOf world).enum).take (programmed (devicelistOf world))).map
          (fun p => (p.1, specOutcome p.2))
       else []) ∧
    (∀ dev ok, (dev, ok) ∈ outcomes (applyU360map world table mapId hasRestrictor).trace →
      ∃ d, (devicelistOf world)[dev]? = some d ∧
        (ok = true ↔ (transferResults d.1).sum = 96) ∧
        ((∀ k, k < 24 → d.1.transferRc k ≤ 4) →
          (ok = true ↔ ((transferResults d.1).map bytesWritten).sum = 96))) ∧
    (∀ K d, world.initRc = LIBUSB_SUCCESS → (devicelistOf world)[K + 1]? = some d →
      (∀ j x, j ≤ K → (devicelistOf world)[j]? = some x → ¬ fatal x.1) → claimable d.1 →
      (K + 1, specOutcome d) ∈ outcomes (applyU360map world table mapId hasRestrictor).trace) ∧
    (world.initRc = LIBUSB_SUCCESS → devicelistOf world ≠ [] →
      (∀ d ∈ devicelistOf world, ¬ fatal d.1) →
      (applyU360map world table mapId hasRestrictor).status = EXIT_SUCCESS ∧
      outcomes (applyU360map world table mapId hasRestrictor).trace =
        ((devicelistOf world).enum).map (fun p => (p.1, specOutcome p.2))) := by
  have hfirst : outcomes (applyU360map world table mapId hasRestrictor).trace =
      (if world.initRc = LIBUSB_SUCCESS then
        (((devicelistOf world).enum).take (programmed (devicelistOf world))).map
          (fun p => (p.1, specOutcome p.2))
       else []) := by
    by_cases hinit : world.initRc = LIBUSB_SUCCESS
    · rw [if_pos hinit, applyU360map_outcomes _ _ _ _ hinit]
      apply List.map_congr_left
      intro p hp
      have hmem : p.2 ∈ devicelistOf world :=
        List.snd_mem_of_mem_enumFrom (List.mem_of_mem_take hp)
      rw [outcome_flag p.2 (hno p.2 hmem)]
    · rw [if_neg hinit]
      exact (applyU360map_no_init _ _ _ _ hinit).2
  refine ⟨hfirst, ?_, ?_, ?_⟩
  · intro dev ok hmem
    rw [hfirst] at hmem
    split_ifs at hmem
    · rw [List.mem_map] at hmem
      obtain ⟨p, hp, heq⟩ := hmem
      have hp' : (p.1, p.2) ∈ (devicelistOf world).enum := List.mem_of_mem_take hp
      rw [List.mk_mem_enum_iff_getElem?] at hp'
      simp only [Prod.mk.injEq] at heq
      have hok : ok = true ↔ (transferResults p.2.1).sum = 96 := by
        rw [← heq.2, specOutcome]
        simp
      exact ⟨p.2, by rw [← heq.1]; exact hp', hok,
        fun h4 => hok.trans (bytes_eq_96_iff p.2.1 h4).symm⟩
    · simp at hmem
  · intro K d hinit hK hbefore hclaim
    have h := next_outcome world table mapId hasRestrictor hinit (K + 1) d hK
      (fun j x hj hx => hbefore j x (by omega) hx) hclaim
    rw [outcome_flag d (hno d (List.getElem?_mem hK))] at h
    exact h
  · intro hinit hne hnf
    constructor
    · have hf : (getdevice world.bus U360_VENDOR U360_PRODUCT []).1 = true := by
        have : (getdevice world.bus U360_VENDOR U360_PRODUCT []).1 =
            !(devicelistOf world).isEmpty := rfl
        rw [this]
        cases hdl : devicelistOf world with
        | nil => exact absurd hdl hne
        | cons x rest => rfl
      rw [applyU360map_found _ _ _ _ hinit hf]
      obtain ⟨s', hs'⟩ := deviceLoop_not_fatal mapId hasRestrictor (devicelistOf world)
        (loopEntry world table) 0 hnf
      rw [hs']
    · rw [hfirst, if_pos hinit, programmed_eq_length _ hnf]
      rw [List.take_of_length_le (by simp [List.enum])]

/-- C10: when each of the 24 control transfers of a device returns at most 4
(a byte count 0..4 or a negative error code) and no `rc +=` overflows `int`
(as is the case for every libusb error code, see `noOverflow_of_libusb`), the
accumulated `rc` of the write loop is 96 if and only if every one of the 24
transfers returned exactly 4, and the outcome line printed for the device says
SUCCESS exactly in that case: no mix of error codes and short writes adds up
to 96. -/
theorem success_iff_all_four (mapId : Int) (hasRestrictor : Bool) (s : Session) (pos : Nat)
    (d : DeviceEntry) (h4 : ∀ k, k < 24 → d.1.transferRc k ≤ 4)
    (hno : noOverflow 0 (transferResults d.1)) (hclaim : claimable d.1) :
    (∀ handle payload trace,
      (writeLoop d.1 handle payload 0 (0, trace)).1 = 96 ↔
        ∀ k, k < 24 → d.1.transferRc k = 4) ∧
    (∃ success, outcomes (loopBody mapId hasRestrictor s pos d).trace =
        outcomes s.trace ++ [(pos, success)] ∧
      (success = true ↔ ∀ k, k < 24 → d.1.transferRc k = 4)) := by
  have hacc : accumulate 0 (transferResults d.1) = 96 ↔
      ∀ k, k < 24 → d.1.transferRc k = 4 := by
    rw [accumulate_eq_sum _ 0 hno, Int.zero_add]
    exact sum_eq_96_iff d.1 h4
  constructor
  · intro handle payload trace
    rw [writeLoop_zero]
    exact hacc
  · refine ⟨decide (accumulate 0 (transferResults d.1) = 96), ?_, ?_⟩
    · rw [loopBody_claimable _ _ _ _ _ hclaim]
      split_ifs
      · simp only [Flow.trace]
        rw [outcomes_errorhandler _ _ (Event.errorCode _) _ rfl, outcomes_append,
          outcomes_programEvents]
      · simp only [Flow.trace]
        rw [outcomes_append, outcomes_programEvents]
    · rw [decide_eq_true_eq]
      exact hacc

/-! ## Arguments of main -/

theorem main_two (world : World) (table : MapTable) (p s : String) :
    main world table [p, s] =
      match stol s.toList with
      | some v =>
        if 1 ≤ v ∧ v ≤ 9 then applyU360map world table v false else wrongArgumentsRun
      | none => wrongArgumentsRun := by
  simp only [main, List.length_cons, List.length_nil, List.getD_cons_succ, List.getD_cons_zero]
  cases hst : stol s.toList with
  | none => simp [wrongArgumentsRun]
  | some v =>
    by_cases hv : 1 ≤ v ∧ v ≤ 9
    · have h1 : ¬ (v < 1 ∨ v > 9) := by omega
      have h2 : v ≠ 0 := by omega
      simp [hv, h1, h2]
    · have h1 : v < 1 ∨ v > 9 := by omega
      simp [hv, h1, wrongArgumentsRun]

theorem main_three (world : World) (table : MapTable) (p s t : String) :
    main world table [p, s, t] =
      match stol s.toList with
      | some v =>
        if 1 ≤ v ∧ v ≤ 9 then applyU360map world table v false else wrongArgumentsRun
      | none => wrongArgumentsRun := by
  simp only [main, List.length_cons, List.length_nil, List.getD_cons_succ, List.getD_cons_zero]
  cases hst : stol s.toList with
  | none => simp [wrongArgumentsRun]
  | some v =>
    by_cases hv : 1 ≤ v ∧ v ≤ 9
    · have h1 : ¬ (v < 1 ∨ v > 9) := by omega
      have h2 : v ≠ 0 := by omega
      simp [hv, h1, h2]
    · have h1 : v < 1 ∨ v > 9 := by omega
      simp [hv, h1, wrongArgumentsRun]

theorem loopBody_extends (mapId : Int) (hasRestrictor : Bool) (s : Session) (pos : Nat)
    (d : DeviceEntry) :
    ∃ rest, (loopBody mapId hasRestrictor s pos d).trace = s.trace ++ rest := by
  by_cases hc : claimable d.1
  · rw [loopBody_claimable _ _ _ _ _ hc]
    split_ifs
    · refine ⟨programEvents hasRestrictor (s.table mapId).name
        (patchPayload (s.table mapId).payload hasRestrictor) pos d ++
        ([Event.errorCode d.1.releaseRc] ++ (cleanup s.context (some pos) ++
          [Event.exit EXIT_FAILURE])), ?_⟩
      simp only [Flow.trace, errorhandler, List.append_assoc]
    · exact ⟨_, rfl⟩
  · rw [loopBody_not_claimable _ _ _ _ _ hc]
    refine ⟨openingEvents pos d.1 ++ ([Event.errorCode (openingError d.1)] ++
      (cleanup s.context (if d.1.openRc = LIBUSB_SUCCESS then some pos else s.devicehandle) ++
        [Event.exit EXIT_FAILURE])), ?_⟩
    simp only [Flow.trace, errorhandler, List.append_assoc]

theorem deviceLoop_extends (mapId : Int) (hasRestrictor : Bool) :
    ∀ (devicelist : List DeviceEntry) (s : Session) (pos : Nat),
      ∃ rest, (deviceLoop mapId hasRestrictor s pos devicelist).trace = s.trace ++ rest := by
  intro devicelist
  induction devicelist with
  | nil =>
    intro s pos
    exact ⟨[], by simp [deviceLoop, Flow.trace]⟩
  | cons x xs ih =>
    intro s pos
    obtain ⟨rest, hrest⟩ := loopBody_extends mapId hasRestrictor s pos x
    rw [deviceLoop]
    cases hb : loopBody mapId hasRestrictor s pos x with
    | running s' =>
      rw [hb] at hrest
      obtain ⟨rest', hrest'⟩ := ih s' (pos + 1)
      simp only [Flow.trace] at hrest
      exact ⟨rest ++ rest', by rw [hrest', hrest, List.append_assoc]⟩
    | exited r =>
      rw [hb] at hrest
      exact ⟨rest, hrest⟩

theorem applyU360map_starts_with_init (world : World) (table : MapTable) (mapId : Int)
    (hasRestrictor : Bool) :
    (applyU360map world table mapId hasRestrictor).trace.head? =
      some (Event.libusb_init world.initRc) := by
  by_cases hinit : world.initRc = LIBUSB_SUCCESS
  · cases hf : (getdevice world.bus U360_VENDOR U360_PRODUCT []).1 with
    | false =>
      rw [applyU360map_not_found _ _ _ _ hinit hf]
      simp [errorhandler]
    | true =>
      rw [applyU360map_found _ _ _ _ hinit hf]
      obtain ⟨rest, hrest⟩ := deviceLoop_extends mapId hasRestrictor (devicelistOf world)
        (loopEntry world table) 0
      cases hd : deviceLoop mapId hasRestrictor (loopEntry world table) 0
          (devicelistOf world) with
      | running s' =>
        rw [hd] at hrest
        simp only [Flow.trace] at hrest
        simp [hrest, loopEntry]
      | exited r =>
        rw [hd] at hrest
        simp only [Flow.trace] at hrest
        simp [hrest, loopEntry]
  · rw [applyU360map_init_failed _ _ _ _ hinit]
    simp [errorhandler]

theorem applyU360map_ne_wrongArguments (world : World) (table : MapTable) (mapId : Int)
    (hasRestrictor : Bool) :
    applyU360map world table mapId hasRestrictor ≠ wrongArgumentsRun := by
  intro h
  have := applyU360map_starts_with_init world table mapId hasRestrictor
  rw [h] at this
  simp [wrongArgumentsRun] at this

theorem isspace_of_isDigit (c : Char) (h : c.isDigit = true) : isspace c = false := by
  simp only [Char.isDigit, Bool.and_eq_true, decide_eq_true_eq] at h
  have h48 : 48 ≤ c.toNat := by
    have := h.1
    simpa [Char.toNat, UInt32.le_def] using this
  simp only [isspace, Bool.or_eq_false_iff, Bool.and_eq_false_iff, decide_eq_false_iff_not]
  constructor
  · intro hc
    rw [hc] at h48
    simp at h48
  · right
    simp
    omega

theorem takeWhile_digits_append (t rest : List Char) (hd : t.all Char.isDigit = true)
    (hrest : ∀ c, rest.head? = some c → c.isDigit = false) :
    (t ++ rest).takeWhile Char.isDigit = t := by
  rw [List.takeWhile_append_of_pos (by simpa using hd)]
  cases rest with
  | nil => simp
  | cons c cs =>
    have := hrest c rfl
    simp [List.takeWhile_cons, this]

theorem stol_skips_space (ws str : List Char) (hws : ∀ c ∈ ws, isspace c = true) :
    stol (ws ++ str) = stol str := by
  unfold stol
  rw [List.dropWhile_append_of_pos hws]

theorem stol_plus (t rest : List Char) (hne : t ≠ []) (hd : t.all Char.isDigit = true)
    (hrest : ∀ c, rest.head? = some c → c.isDigit = false)
    (hv : (digitsValue t : Int) ≤ LONG_MAX) :
    stol ('+' :: t ++ rest) = some (digitsValue t : Int) := by
  have hsp : isspace '+' = false := by decide
  have hlo : ¬ ((digitsValue t : Int) < LONG_MIN) := by
    simp only [LONG_MIN]
    omega
  have htake := takeWhile_digits_append t rest hd hrest
  simp only [stol, List.cons_append, List.dropWhile_cons, hsp, stolSign]
  simp [htake, hne, hlo, not_lt.mpr hv]

theorem stolSign_digit (c : Char) (cs : List Char) (hm : c ≠ '-') (hp : c ≠ '+') :
    stolSign (c :: cs) = (false, c :: cs) := by
  unfold stolSign
  split
  · rename_i heq; simp at heq; exact absurd heq.1 hm
  · rename_i heq; simp at heq; exact absurd heq.1 hp
  · rfl

theorem stol_digits (c : Char) (cs rest : List Char)
    (hd : (c :: cs).all Char.isDigit = true)
    (hrest : ∀ x, rest.head? = some x → x.isDigit = false)
    (hv : (digitsValue (c :: cs) : Int) ≤ LONG_MAX) :
    stol (c :: cs ++ rest) = some (digitsValue (c :: cs) : Int) := by
  have hc : c.isDigit = true := by
    simp only [List.all_cons, Bool.and_eq_true] at hd
    exact hd.1
  have hsp : isspace c = false := isspace_of_isDigit c hc
  have hm : c ≠ '-' := by
    intro h; subst h; simp [Char.isDigit] at hc
  have hp : c ≠ '+' := by
    intro h; subst h; simp [Char.isDigit] at hc
  have hlo : ¬ ((digitsValue (c :: cs) : Int) < LONG_MIN) := by
    simp only [LONG_MIN]
    omega
  have hdrop : (c :: (cs ++ rest)).dropWhile isspace = c :: (cs ++ rest) := by
    simp [List.dropWhile_cons, hsp]
  have htake := takeWhile_digits_append (c :: cs) rest hd hrest
  unfold stol
  simp only [List.cons_append] at htake ⊢
  simp only [hdrop, stolSign_digit c (cs ++ rest) hm hp]
  simp only [htake]
  simp [hlo, not_lt.mpr hv]

theorem stol_of_specInteger (ws body rest : List Char) (v : Int)
    (hws : ∀ c ∈ ws, isspace c = true)
    (hrest : ∀ c, rest.head? = some c → c.isDigit = false)
    (h : specInteger body = some v) (hv : 1 ≤ v ∧ v ≤ 9) :
    stol (ws ++ body ++ rest) = some v := by
  rw [List.append_assoc, stol_skips_space ws _ hws]
  cases body with
  | nil => simp [specInteger] at h
  | cons c cs =>
    by_cases hm : c = '-'
    · subst hm
      simp [specInteger] at h
      omega
    · by_cases hp : c = '+'
      · subst hp
        simp only [specInteger] at h
        split_ifs at h with hd
        have hv' : (digitsValue cs : Int) = v := by simpa using h
        rw [stol_plus cs rest hd.1 hd.2 hrest (by rw [hv']; simp only [LONG_MAX]; omega), hv']
      · unfold specInteger at h
        split at h
        · rename_i heq; simp at heq; exact absurd heq.1 hm
        · rename_i heq; simp at heq; exact absurd heq.1 hp
        · split_ifs at h with hd
          have hv' : (digitsValue (c :: cs) : Int) = v := by simpa using h
          rw [stol_digits c cs rest hd.2 hrest (by rw [hv']; simp only [LONG_MAX]; omega), hv']

theorem stol_of_specMapId (ws body rest : List Char) (m : Int)
    (hws : ∀ c ∈ ws, isspace c = true)
    (hrest : ∀ c, rest.head? = some c → c.isDigit = false)
    (h : specMapId body = some m) :
    stol (ws ++ body ++ rest) = some m ∧ 1 ≤ m ∧ m ≤ 9 := by
  unfold specMapId at h
  cases hv : specInteger body with
  | none =>
    rw [hv] at h
    cases h
  | some v =>
    rw [hv] at h
    simp only at h
    split_ifs at h with hr
    have hm : v = m := Option.some.inj h
    rw [← hm]
    exact ⟨stol_of_specInteger ws body rest v hws hrest hv hr, hr⟩

theorem main_applies (world : World) (table : MapTable) (p s : String) (rest : List String)
    (hrest : rest.length ≤ 1) :
    main world table (p :: s :: rest) =
      match stol s.toList with
      | some v =>
        if 1 ≤ v ∧ v ≤ 9 then applyU360map world table v false else wrongArgumentsRun
      | none => wrongArgumentsRun := by
  match rest, hrest with
  | [], _ => exact main_two world table p s
  | [t], _ => exact main_three world table p s t

/-- C6 as amended: whatever else is on the command line, `main` goes on to
apply a map exactly when `std::stol` reads from the map id argument an integer
in 1..9 (optional white space, an optional sign, then decimal digits; whatever
follows the digits is ignored), and then applies exactly that map; every
argument that denotes an integer in 1..9 is such an argument, also with white
space before it and with text that does not start with a digit after it.  For
any other
argument `main` reports wrong arguments and returns failure status without
calling `applyU360map`: its trace has no call of the USB library, while every
run of `applyU360map` starts with `libusb_init`. -/
theorem map_id_argument (world : World) (table : MapTable) (p s : String)
    (rest : List String) (hrest : rest.length ≤ 1) :
    (∀ m, specMapId s.toList = some m →
      ∃ r, main world table (p :: s :: rest) = applyU360map world table m r) ∧
    (∀ ws body tail m, s.toList = ws ++ body ++ tail → (∀ c ∈ ws, isspace c = true) →
      (∀ c, tail.head? = some c → c.isDigit = false) → specMapId body = some m →
      ∃ r, main world table (p :: s :: rest) = applyU360map world table m r) ∧
    (∀ m, stol s.toList = some m → 1 ≤ m → m ≤ 9 →
      ∃ r, main world table (p :: s :: rest) = applyU360map world table m r) ∧
    ((∀ m, stol s.toList = some m → m < 1 ∨ 9 < m) →
      main world table (p :: s :: rest) = wrongArgumentsRun) ∧
    (∀ m r, applyU360map world table m r ≠ wrongArgumentsRun) ∧
    wrongArgumentsRun = { trace := [Event.wrongArguments], status := EXIT_FAILURE } := by
  have hmain := main_applies world table p s rest hrest
  have hstol : ∀ m, stol s.toList = some m → 1 ≤ m → m ≤ 9 →
      ∃ r, main world table (p :: s :: rest) = applyU360map world table m r := by
    intro m hm h1 h9
    rw [hm] at hmain
    simp only [if_pos (And.intro h1 h9)] at hmain
    exact ⟨false, hmain⟩
  refine ⟨?_, ?_, hstol, ?_, ?_, rfl⟩
  · intro m hm
    obtain ⟨h, h1, h9⟩ := stol_of_specMapId [] s.toList [] m (by simp) (by simp) hm
    rw [List.nil_append, List.append_nil] at h
    exact hstol m h h1 h9
  · intro ws body tail m hsplit hws htail hm
    obtain ⟨h, h1, h9⟩ := stol_of_specMapId ws body tail m hws htail hm
    rw [← hsplit] at h
    exact hstol m h h1 h9
  · intro hbad
    cases hst : stol s.toList with
    | none =>
      rw [hst] at hmain
      exact hmain
    | some v =>
      rw [hst] at hmain
      have hv : ¬ (1 ≤ v ∧ v ≤ 9) := by
        have := hbad v hst
        omega
      simp only [if_neg hv] at hmain
      exact hmain
  · intro m r
    exact applyU360map_ne_wrongArguments world table m r

/-- C6, witness: the argument ` +7x` selects map 7. -/
theorem map_id_argument_witness :
    ([] : List String).length ≤ 1 ∧ stol " +7x".toList = some 7 ∧
    ∃ r, main twoSticks sampleTable ["setultrastik360", " +7x"] =
      applyU360map twoSticks sampleTable 7 r :=
  ⟨by decide, by decide,
    (map_id_argument twoSticks sampleTable "setultrastik360" " +7x" [] (by decide)).2.2.1 7
      (by decide) (by decide) (by decide)⟩

/-- C6 as stated fails: the argument `5abc` does not denote an integer in 1..9,
yet `main` does not report wrong arguments but applies map 5. -/
theorem trailing_text_is_accepted :
    specMapId "5abc".toList = none ∧
    main twoSticks sampleTable ["setultrastik360", "5abc"] =
      applyU360map twoSticks sampleTable 5 false ∧
    main twoSticks sampleTable ["setultrastik360", "5abc"] ≠ wrongArgumentsRun := by
  have h5 : stol "5abc".toList = some 5 := by decide
  have hmain : main twoSticks sampleTable ["setultrastik360", "5abc"] =
      applyU360map twoSticks sampleTable 5 false := by
    rw [main_two, h5]
    rfl
  refine ⟨by decide, hmain, ?_⟩
  rw [hmain]
  exact applyU360map_ne_wrongArguments _ _ _ _

/-! ## Sample runs -/

theorem devicelistOf_twoSticks :
    devicelistOf twoSticks =
      [(u360 0x0511, (0xD209 : Int), (0x0511 : Int)),
       (u360 0x0512, (0xD209 : Int), (0x0512 : Int))] := by
  rw [devicelistOf_eq]
  rfl

theorem claimable_u360 (product : Nat) : claimable (u360 product) := by
  simp [claimable, u360, LIBUSB_SUCCESS]

theorem not_fatal_u360 (product : Nat) : ¬ fatal (u360 product) := by
  simp [fatal, claimable, u360, LIBUSB_SUCCESS]

theorem not_fatal_twoSticks : ∀ d ∈ devicelistOf twoSticks, ¬ fatal d.1 := by
  rw [devicelistOf_twoSticks]
  intro d hd
  simp only [List.mem_cons, List.mem_singleton, List.not_mem_nil, or_false] at hd
  rcases hd with hd | hd <;> rw [hd] <;> exact not_fatal_u360 _

theorem programmed_twoSticks : programmed (devicelistOf twoSticks) = 2 := by
  rw [programmed_eq_length _ not_fatal_twoSticks, devicelistOf_twoSticks]
  rfl

theorem openHandles_append (a b : List Event) :
    openHandles (a ++ b) = openHandles a + openHandles b := by
  simp [openHandles]

theorem openHandles_cycles (dev : libusb_device) (pos : Nat) (payload : List Nat)
    (ks : List Nat) : openHandles (ks.flatMap (cycleEvents dev pos payload)) = 0 := by
  induction ks with
  | nil => rfl
  | cons k ks ih =>
    rw [List.flatMap_cons, openHandles_append, ih]
    simp [cycleEvents, openHandles, handleDelta]

theorem openHandles_programEvents (hasRestrictor : Bool) (name : String) (payload : List Nat)
    (pos : Nat) (d : DeviceEntry) (hc : claimable d.1) :
    openHandles (programEvents hasRestrictor name payload pos d) = 1 := by
  obtain ⟨h1, _, _⟩ := hc
  simp only [programEvents, openHandles_append, openHandles_cycles]
  unfold openingEvents
  split_ifs <;> simp [openHandles, handleDelta, h1]

theorem openHandles_warnings (trace : List Event)
    (h : ∀ e ∈ trace, ∃ rc, e = Event.warning rc) : openHandles trace = 0 := by
  induction trace with
  | nil => rfl
  | cons e es ih =>
    obtain ⟨rc, hrc⟩ := h e (List.mem_cons_self e es)
    have := ih (fun x hx => h x (List.mem_cons_of_mem e hx))
    simp only [openHandles, List.map_cons, List.sum_cons] at this ⊢
    rw [this, hrc]
    rfl

theorem openHandles_loopEntry (world : World) (table : MapTable) :
    openHandles (loopEntry world table).trace = 0 := by
  simp only [loopEntry, openHandles_append,
    openHandles_warnings _ (getdevice_warnings _ _ _)]
  simp [openHandles, handleDelta]

theorem applyU360map_twoSticks (table : MapTable) (mapId : Int) (hasRestrictor : Bool) :
    (applyU360map twoSticks table mapId hasRestrictor).trace =
      ((loopEntry twoSticks table).trace ++
        programEvents hasRestrictor (table mapId).name
          (patchPayload (table mapId).payload hasRestrictor) 0
          (u360 0x0511, (0xD209 : Int), (0x0511 : Int)) ++
        programEvents hasRestrictor (table mapId).name
          (patchPayload (table mapId).payload hasRestrictor) 1
          (u360 0x0512, (0xD209 : Int), (0x0512 : Int))) ++
      cleanup (some ()) (some 1) := by
  have hf : (getdevice twoSticks.bus U360_VENDOR U360_PRODUCT []).1 = true := by
    have : (getdevice twoSticks.bus U360_VENDOR U360_PRODUCT []).1 =
        !(devicelistOf twoSticks).isEmpty := rfl
    rw [this, devicelistOf_twoSticks]
    rfl
  rw [applyU360map_found _ _ _ _ rfl hf, devicelistOf_twoSticks, deviceLoop,
    loopBody_claimable _ _ _ _ _ (claimable_u360 _), if_neg (by simp [u360, LIBUSB_SUCCESS])]
  simp only
  rw [deviceLoop, loopBody_claimable _ _ _ _ _ (claimable_u360 _),
    if_neg (by simp [u360, LIBUSB_SUCCESS])]
  simp only [deviceLoop, patchTable_payload, patchTable_name, patchPayload_idem]
  rfl

/-- C9, the defect: with two UltraStik 360 on the bus and every call
succeeding, the handle of the first stick is never closed.  Two handles are
open once the second stick is opened, and one is still open when the run has
ended: `cleanup` closes only the handle that `devicehandle` holds last. -/
theorem second_handle_left_open :
    openHandles (applyU360map twoSticks sampleTable 5 false).trace = 1 ∧
    ∃ before after,
      (applyU360map twoSticks sampleTable 5 false).trace = before ++ after ∧
      openHandles before = 2 := by
  constructor
  · rw [applyU360map_twoSticks, openHandles_append, openHandles_append, openHandles_append,
      openHandles_loopEntry, openHandles_programEvents _ _ _ _ _ (claimable_u360 _),
      openHandles_programEvents _ _ _ _ _ (claimable_u360 _)]
    simp [cleanup, openHandles, handleDelta]
  · refine ⟨_, _, applyU360map_twoSticks sampleTable 5 false, ?_⟩
    rw [openHandles_append, openHandles_append,
      openHandles_loopEntry, openHandles_programEvents _ _ _ _ _ (claimable_u360 _),
      openHandles_programEvents _ _ _ _ _ (claimable_u360 _)]
    rfl

/-- C5, the defect: `argv[2] == "-r"` compares two pointers, which never are
equal, so with the arguments `5 -r` the map is applied with `hasRestrictor`
false, as it is with the single argument `5`; on a host with a stick the first
frame sent then carries 0x09, not 0x10, at offset 2. -/
theorem dash_r_leaves_restrictor_off (world : World) (table : MapTable) :
    main world table ["setultrastik360", "5", "-r"] = applyU360map world table 5 false ∧
    main world table ["setultrastik360", "5"] = applyU360map world table 5 false ∧
    (framesSent 0 (main twoSticks sampleTable ["setultrastik360", "5", "-r"]).trace)[0]? =
      some [0, 1, 9, 3] := by
  have h5 : stol "5".toList = some 5 := by decide
  have h3 : ∀ w t, main w t ["setultrastik360", "5", "-r"] = applyU360map w t 5 false := by
    intro w t
    rw [main_three, h5]
    rfl
  refine ⟨h3 world table, ?_, ?_⟩
  · rw [main_two, h5]
    rfl
  · rw [h3, applyU360map_framesSent _ _ _ _ rfl, programmed_twoSticks, if_pos (by decide)]
    decide

/-! ## Witnesses -/

/-- C1, witness: on a bus with sticks of product id base-1, base, base+3 and
base+4 and an unreadable device, exactly the sticks with base and base+3 are
listed, in bus order. -/
theorem getdevice_exact_witness :
    U360_PRODUCT < 2 ^ 16 ∧
    (getdevice sampleBus U360_VENDOR U360_PRODUCT []).2.2 =
      [(u360 0x0511, (0xD209 : Int), (0x0511 : Int)),
       (u360 0x0514, (0xD209 : Int), (0x0514 : Int))] ∧
    (getdevice sampleBus U360_VENDOR U360_PRODUCT []).1 = true :=
  ⟨by decide,
    (getdevice_exact sampleBus U360_VENDOR U360_PRODUCT (by decide)).1.trans rfl,
    (getdevice_exact sampleBus U360_VENDOR U360_PRODUCT (by decide)).2.1.trans rfl⟩

theorem before_second_of_twoSticks :
    ∀ j x, j < 1 → (devicelistOf twoSticks)[j]? = some x → ¬ fatal x.1 := by
  intro j x _ hx
  exact not_fatal_twoSticks x (List.getElem?_mem hx)

theorem second_of_twoSticks :
    (devicelistOf twoSticks)[1]? = some (u360 0x0512, (0xD209 : Int), (0x0512 : Int)) := by
  rw [devicelistOf_twoSticks]
  rfl

/-- C2, witness: the second of two sticks receives 24 frames, the first of them
with the restrictor byte 0x10 at offset 2, that add up to the patched payload. -/
theorem write_loop_frames_witness :
    (sampleTable 5).payload.length = 96 ∧
    claimable (u360 0x0512) ∧
    (framesSent 1 (applyU360map twoSticks sampleTable 5 true).trace).length = 24 ∧
    (framesSent 1 (applyU360map twoSticks sampleTable 5 true).trace)[0]? =
      some [0, 1, 16, 3] ∧
    (framesSent 1 (applyU360map twoSticks sampleTable 5 true).trace).flatten =
      patchPayload (sampleTable 5).payload true :=
  have h := write_loop_frames twoSticks sampleTable 5 true 1
    (u360 0x0512, (0xD209 : Int), (0x0512 : Int)) rfl (by decide) second_of_twoSticks
    before_second_of_twoSticks (claimable_u360 _)
  ⟨by decide, claimable_u360 _, h.2.1, (h.2.2.1 0 (by decide)).trans (by decide), h.2.2.2⟩

/-- C3, witness: the patched sample payload has 0x10 at offset 2 with the
restrictor and 0x09 without. -/
theorem restrictor_patch_witness :
    (sampleTable 5).payload.length = 96 ∧
    (patchPayload (sampleTable 5).payload true)[2]? = some 0x10 ∧
    (patchPayload (sampleTable 5).payload false)[2]? = some 0x09 :=
  ⟨by decide, (restrictor_patch twoSticks sampleTable 5 true (by decide)).2.1,
    (restrictor_patch twoSticks sampleTable 5 false (by decide)).2.1⟩

theorem devicelistOf_flakyHost :
    devicelistOf flakyHost =
      [(timingOut 0x0511, (0xD209 : Int), (0x0511 : Int)),
       (u360 0x0512, (0xD209 : Int), (0x0512 : Int))] := by
  rw [devicelistOf_eq]
  rfl

theorem noOverflow_flakyHost :
    ∀ d ∈ devicelistOf flakyHost, noOverflow 0 (transferResults d.1) := by
  rw [devicelistOf_flakyHost]
  intro d hd
  simp only [List.mem_cons, List.mem_singleton, List.not_mem_nil, or_false] at hd
  rcases hd with hd | hd <;> rw [hd] <;> decide

theorem not_fatal_flakyHost : ∀ d ∈ devicelistOf flakyHost, ¬ fatal d.1 := by
  rw [devicelistOf_flakyHost]
  intro d hd
  simp only [List.mem_cons, List.mem_singleton, List.not_mem_nil, or_false] at hd
  rcases hd with hd | hd <;> rw [hd] <;> simp [fatal, claimable, u360, timingOut, LIBUSB_SUCCESS]

/-- C4, witness: the first stick has a transfer that times out and gets a
FAILURE line, the second stick is programmed all the same and gets SUCCESS,
and the run ends with success status. -/
theorem outcome_lines_witness :
    (applyU360map flakyHost sampleTable 5 false).status = EXIT_SUCCESS ∧
    outcomes (applyU360map flakyHost sampleTable 5 false).trace = [(0, false), (1, true)] :=
  have h := (outcome_lines flakyHost sampleTable 5 false noOverflow_flakyHost).2.2.2 rfl
    (by rw [devicelistOf_flakyHost]; simp) not_fatal_flakyHost
  ⟨h.1, h.2.trans (by rw [devicelistOf_flakyHost]; decide)⟩

theorem found_iff (world : World) :
    (getdevice world.bus U360_VENDOR U360_PRODUCT []).1 =
      !(specLocate world.bus U360_VENDOR U360_PRODUCT).isEmpty := by
  rw [← devicelistOf_eq]
  rfl

theorem second_of_busyHost :
    (devicelistOf busyHost)[1]? = some (busy 0x0512, (0xD209 : Int), (0x0512 : Int)) := by
  rw [devicelistOf_eq]
  rfl

theorem fatal_busy (product : Nat) : fatal (busy product) := by
  simp [fatal, claimable, busy, u360, LIBUSB_SUCCESS]

/-- C7, witness: without a stick on the bus the run fails without a transfer;
when the second of three sticks cannot be claimed the run fails and no
transfer or outcome line concerns the third stick. -/
theorem fatal_ends_run_witness :
    ((applyU360map emptyHost sampleTable 5 false).status = EXIT_FAILURE ∧
      transfers (applyU360map emptyHost sampleTable 5 false).trace = []) ∧
    ((applyU360map busyHost sampleTable 5 false).status = EXIT_FAILURE ∧
      (∀ t ∈ transfers (applyU360map busyHost sampleTable 5 false).trace, t.1 ≤ 1) ∧
      (∀ o ∈ outcomes (applyU360map busyHost sampleTable 5 false).trace, o.1 ≤ 1)) :=
  have h1 := (fatal_ends_run emptyHost sampleTable 5 false).1
    ((found_iff emptyHost).trans rfl)
  have h2 := (fatal_ends_run busyHost sampleTable 5 false).2 1
    (busy 0x0512, (0xD209 : Int), (0x0512 : Int)) second_of_busyHost (fatal_busy _)
  ⟨⟨h1.1, h1.2.2.1⟩, ⟨h2.1, h2.2.2.1, h2.2.2.2⟩⟩

theorem transfers_le_four_timingOut (product : Nat) :
    ∀ k, k < 24 → (timingOut product).transferRc k ≤ 4 := by
  intro k _
  simp only [timingOut]
  split_ifs <;> decide

theorem claimable_timingOut (product : Nat) : claimable (timingOut product) := by
  simp [claimable, timingOut, u360, LIBUSB_SUCCESS]

/-- C10, witness: 23 full writes and one time-out (-7) do not add up to 96. -/
theorem success_iff_all_four_witness :
    noOverflow 0 (transferResults (timingOut 0x0511)) ∧
    (timingOut 0x0511).transferRc 7 = -7 ∧
    (writeLoop (timingOut 0x0511) 0 (List.range 96) 0 (0, [])).1 ≠ 96 :=
  have h := (success_iff_all_four 5 false (loopEntry flakyHost sampleTable) 0
    (timingOut 0x0511, (0xD209 : Int), (0x0511 : Int)) (transfers_le_four_timingOut _)
    (by decide) (claimable_timingOut _)).1 0 (List.range 96) []
  ⟨by decide, rfl, fun h96 => absurd (h.mp h96 7 (by decide)) (by decide)⟩

end SetUltraStik360
